import Mathlib

/-!
# Credential lifecycle of the ClickHouse database plugin

A shallow embedding of `clickhouse.go`.  Go strings are sequences of
characters, errors are their messages, and every interaction with the
connection producer, the database handle and the transaction is recorded as an
event of a trace.  The database is an arbitrary function from the trace so far
to the outcome of the next call, so a statement proved for every `Database`
holds for every state and behaviour of the database.
-/

namespace VaultClickhouse

/-- A Go string, as the sequence of its characters. -/
abbrev GoString := List Char

/-! ## Strings (Go standard library) -/

/-- The white space of `unicode.IsSpace`, the set `strings.TrimSpace` removes. -/
def isSpace (c : Char) : Bool :=
  c = '\t' || c = '\n' || c.toNat = 0x0B || c.toNat = 0x0C || c = '\r' || c = ' '
    || c.toNat = 0x85 || c.toNat = 0xA0 || c.toNat = 0x1680
    || (0x2000 ≤ c.toNat && c.toNat ≤ 0x200A)
    || c.toNat = 0x2028 || c.toNat = 0x2029 || c.toNat = 0x202F || c.toNat = 0x205F
    || c.toNat = 0x3000

/-- Go `strings.TrimSpace`: leading and trailing white space removed. -/
def TrimSpace (s : GoString) : GoString :=
  ((s.dropWhile isSpace).reverse.dropWhile isSpace).reverse

/-- Go `strings.Split` for a one-character separator: the pieces between the
separators, in order; a string without separator is its own single piece. -/
def Split : GoString → Char → List GoString
  | [], _ => [[]]
  | c :: cs, sep =>
    if c = sep then [] :: Split cs sep
    else
      match Split cs sep with
      | [] => [[c]]
      | piece :: pieces => (c :: piece) :: pieces

/-- Scan of `strings.ReplaceAll` for a non-empty `old`: `skip` counts the
characters of a match that are still to be passed over. -/
def replaceFrom (old new : GoString) : Nat → GoString → GoString
  | _, [] => []
  | skip + 1, _ :: cs => replaceFrom old new skip cs
  | 0, c :: cs =>
    if old.isPrefixOf (c :: cs) then new ++ replaceFrom old new (old.length - 1) cs
    else c :: replaceFrom old new 0 cs

/-- Go `strings.ReplaceAll`: every non-overlapping occurrence of `old`, found
from the left, replaced by `new`; an empty `old` matches before every character
and at the end. -/
def ReplaceAll (s old new : GoString) : GoString :=
  if old = [] then new ++ s.flatMap (fun c => c :: new) else replaceFrom old new 0 s

/-! ## Library helpers -/

/-- Modelled from the spec: `strutil.ParseArbitraryStringSlice` belongs to a
library that is not part of the sources.  For a separator-delimited script the
spec (4.5) has it split on the separator and trim white space from the pieces;
the model does so, trimming the script as a whole first and giving no piece for
a blank script.  The separator is the one-character string `";"` at every call
of the plugin. -/
def ParseArbitraryStringSlice (input : GoString) (sep : Char) : List GoString :=
  let input := TrimSpace input
  if input = [] then [] else (Split input sep).map TrimSpace

/-- Modelled from the spec: the substitution step of
`dbtxn.ExecuteTxQueryDirect`, library code that is not part of the sources.
Every placeholder token `{{key}}` of a key of the parameter map is replaced by
the value of that key (spec 4.5), one key after the other; the map is the list
of its entries. -/
def parseQuery (m : List (GoString × GoString)) (tpl : GoString) : GoString :=
  m.foldl (fun tpl kv => ReplaceAll tpl ("\x7b\x7b".toList ++ kv.1 ++ "\x7d\x7d".toList) kv.2) tpl

/-- Modelled from the spec: the template function `truncate` of the username
template grammar, library code that is not part of the sources: the string cut
to at most `maxLen` characters (spec 3, 4.6). -/
def truncate (maxLen : Nat) (str : GoString) : GoString :=
  if str.length > maxLen then str.take maxLen else str

/-! ## Constants of `clickhouse.go` -/

def defaultChangePasswordStatement : GoString :=
  "ALTER USER '{{username}}' IDENTIFIED WITH plaintext_password '{{password}}' ON CLUSTER '{{cluster}}';".toList

/-- The one query of `defaultChangePasswordStatement`: its text before the
closing `;`. -/
def defaultChangePasswordQuery : GoString :=
  "ALTER USER '{{username}}' IDENTIFIED WITH plaintext_password '{{password}}' ON CLUSTER '{{cluster}}'".toList

/-- Request metadata of a username: `dbplugin.UsernameMetadata`. -/
structure UsernameMetadata where
  DisplayName : GoString
  RoleName : GoString
  deriving DecidableEq

/-- The constant `defaultUserNameTemplate` (line 22), the text of the default
username template. -/
def defaultUserNameTemplate : GoString :=
  "\x7b\x7b printf \"v-%s-%s-%s-%s\" (.DisplayName | truncate 8) (.RoleName | truncate 8) (random 20) (unix_time) | truncate 63 \x7d\x7d".toList

/-- The username the template `defaultUserNameTemplate` renders: its one action,
`printf "v-%s-%s-%s-%s" (.DisplayName | truncate 8) (.RoleName | truncate 8)
(random 20) (unix_time) | truncate 63`, read as a function of the metadata.
The template functions `random` and `unix_time` are not functions of the
metadata: `random` is any function from the requested length to a token and
`unix_time` any string. -/
def renderDefaultUserNameTemplate (random : Nat → GoString) (unix_time : GoString)
    (md : UsernameMetadata) : GoString :=
  truncate 63
    ("v-".toList ++ truncate 8 md.DisplayName ++ "-".toList ++ truncate 8 md.RoleName
      ++ "-".toList ++ random 20 ++ "-".toList ++ unix_time)

def expirationFormat : GoString := "2006-01-02 15:04:05".toList

/-- Modelled from the spec: the error `dbutil.ErrEmptyCreationStatement` of a
library that is not part of the sources, the error of an empty creation script
(spec 4.2, 7). -/
def ErrEmptyCreationStatement : GoString := "empty creation statements".toList

/-! ## The database and the trace of a call -/

/-- Outcome of `QueryRowContext(...).Scan(&dest)`: a row scanned into the
destination, `sql.ErrNoRows`, or another error. -/
inductive ScanResult (α : Type)
  | row (a : α)
  | ErrNoRows
  | err (e : GoString)
  deriving DecidableEq

/-- One step of a call that touches the guard, the connection producer, the
database handle or the transaction, with the outcome it had. -/
inductive Event
  /-- The call `p.Lock()` -/
  | Lock
  /-- The call `p.Unlock()` -/
  | Unlock
  /-- The call `p.Connection(ctx)` inside `getConnection` -/
  | Connection (err : Option GoString)
  /-- The query `SELECT DISTINCT cluster FROM system.clusters;` scanned into a string -/
  | QueryCluster (res : ScanResult GoString)
  /-- The existence query on `system.users` with the username as its argument,
  scanned into a boolean -/
  | QueryExists (username : GoString) (res : ScanResult Bool)
  /-- The call `db.BeginTx(ctx, nil)` -/
  | BeginTx (err : Option GoString)
  /-- The call `tx.ExecContext(ctx, query)` -/
  | TxExec (query : GoString) (err : Option GoString)
  /-- The call `tx.Commit()` -/
  | Commit (err : Option GoString)
  /-- The call `tx.Rollback()` -/
  | Rollback
  /-- The call `db.ExecContext(ctx, "DROP USER IF EXISTS $1 ON CLUSTER $2;", username, cluster)` -/
  | DropUser (username cluster : GoString) (err : Option GoString)
  /-- The call `db.Close()` -/
  | Close
  deriving DecidableEq

/-- The connection producer and the database behind it: the outcome of each
call, as a function of everything that happened before it.  With them goes the
one choice the Go runtime makes in these calls: `rangeOrder` is the order in
which a `range` over a map visits the entries of the map, some rearrangement of
them. -/
structure Database where
  Connection : List Event → Option GoString
  QueryCluster : List Event → ScanResult GoString
  QueryExists : List Event → GoString → ScanResult Bool
  BeginTx : List Event → Option GoString
  TxExec : List Event → GoString → Option GoString
  Commit : List Event → Option GoString
  DropUser : List Event → GoString → GoString → Option GoString
  rangeOrder : List Event → List (GoString × GoString) → List (GoString × GoString)
  rangeOrder_perm : ∀ tr m, (rangeOrder tr m).Perm m

/-- An `error` value returned by the plugin: an error with a message, or the
`*multierror.Error` of `UpdateUser` with the errors it collected. -/
inductive GoError
  | errorString (msg : GoString)
  | multierror (Errors : List GoString)
  deriving DecidableEq

/-- The `fmt.Errorf("<text>: %w", err)` wrapping. -/
def wrap (text : String) (err : GoString) : GoString :=
  text.toList ++ ": ".toList ++ err

/-! ## Requests -/

/-- The `dbplugin.Statements` of a request. -/
structure Statements where
  Commands : List GoString
  deriving DecidableEq

/-- The `dbplugin.ChangePassword` of an update request. -/
structure ChangePassword where
  NewPassword : GoString
  Statements : Statements
  deriving DecidableEq

/-- A point in time, by the fields `Format` prints. -/
structure Time where
  Year : Nat
  Month : Nat
  Day : Nat
  Hour : Nat
  Minute : Nat
  Second : Nat
  deriving DecidableEq

/-- The `dbplugin.ChangeExpiration` of an update request. -/
structure ChangeExpiration where
  NewExpiration : Time
  Statements : Statements
  deriving DecidableEq

/-- The request `dbplugin.UpdateUserRequest`; a nil pointer is `none`. -/
structure UpdateUserRequest where
  Username : GoString
  Password : Option ChangePassword
  Expiration : Option ChangeExpiration
  deriving DecidableEq

/-- The request `dbplugin.NewUserRequest`. -/
structure NewUserRequest where
  UsernameConfig : UsernameMetadata
  Statements : Statements
  Password : GoString
  Expiration : Time
  deriving DecidableEq

/-- The request `dbplugin.DeleteUserRequest`. -/
structure DeleteUserRequest where
  Username : GoString
  Statements : Statements
  deriving DecidableEq

/-- A decimal number, padded with zeros to a width. -/
def zeroPad (width n : Nat) : GoString :=
  let digits := (Nat.repr n).toList
  List.replicate (width - digits.length) '0' ++ digits

/-- The call `t.Format(expirationFormat)`: date and time of day as
`2006-01-02 15:04:05`. -/
def Time.Format (t : Time) : GoString :=
  zeroPad 4 t.Year ++ "-".toList ++ zeroPad 2 t.Month ++ "-".toList ++ zeroPad 2 t.Day
    ++ " ".toList ++ zeroPad 2 t.Hour ++ ":".toList ++ zeroPad 2 t.Minute ++ ":".toList
    ++ zeroPad 2 t.Second

/-! ## The plugin -/

/-- A compiled username template `template.StringTemplate`, by its text. -/
structure StringTemplate where
  rawTemplate : GoString
  deriving DecidableEq

/-- The plugin object: the embedded connection producer, whose state is of a
type `σ` owned by its library, and the username template. -/
structure Clickhouse (σ : Type) where
  SQLConnectionProducer : σ
  usernameProducer : StringTemplate

/-- The function `getConnection`: the connection of the producer, or its error. -/
def getConnection (db : Database) (tr : List Event) : List Event × Option GoString :=
  let err := db.Connection tr
  (tr ++ [Event.Connection err], err)

/-- The function `getCluster`: the cluster name of `system.clusters`; no row
gives the empty name. -/
def getCluster (db : Database) (tr : List Event) : List Event × Except GoString GoString :=
  match getConnection db tr with
  | (tr, some err) => (tr, .error err)
  | (tr, none) =>
    let res := db.QueryCluster tr
    let tr := tr ++ [Event.QueryCluster res]
    match res with
    | .row cluster => (tr, .ok cluster)
    | .ErrNoRows => (tr, .ok [])
    | .err e => (tr, .error e)

/-- Modelled from the spec: `dbtxn.ExecuteTxQueryDirect` belongs to a library
that is not part of the sources.  The query, with its placeholders substituted
from the parameter map, is executed in the transaction, and the error of the
execution is returned (spec 4.2, step 5). -/
def ExecuteTxQueryDirect (db : Database) (m : List (GoString × GoString)) (query : GoString)
    (tr : List Event) : List Event × Option GoString :=
  let parsedQuery := parseQuery m query
  let err := db.TxExec tr parsedQuery
  (tr ++ [Event.TxExec parsedQuery err], err)

/-- The inner loop `for _, query := range strutil.ParseArbitraryStringSlice(stmt, ";")`
of `NewUser`, `changeUserPassword` and `customDeleteUser`, over the pieces that
are left: trim, skip the empty query, execute, and leave at the first error. -/
def execQueries (db : Database) (m : List (GoString × GoString)) :
    List GoString → List Event → List Event × Option GoString
  | [], tr => (tr, none)
  | query :: queries, tr =>
    let query := TrimSpace query
    if query.length = 0 then execQueries db m queries tr
    else
      match ExecuteTxQueryDirect db m query tr with
      | (tr, some err) => (tr, some err)
      | (tr, none) => execQueries db m queries tr

/-- The outer loop `for _, stmt := range stmts` of `NewUser`,
`changeUserPassword` and `customDeleteUser`, with the parameter map `m` of the
caller; the error is the one of the failed execution, not yet wrapped. -/
def execStatements (db : Database) (m : List (GoString × GoString)) :
    List GoString → List Event → List Event × Option GoString
  | [], tr => (tr, none)
  | stmt :: stmts, tr =>
    match execQueries db m (ParseArbitraryStringSlice stmt ';') tr with
    | (tr, some err) => (tr, some err)
    | (tr, none) => execStatements db m stmts tr

/-- The deferred `tx.Rollback()`: runs when the function body has returned. -/
def deferRollback {α : Type} (r : List Event × α) : List Event × α :=
  (r.1 ++ [Event.Rollback], r.2)

/-- The deferred `p.Unlock()`: runs when the function body has returned. -/
def deferUnlock {α : Type} (r : List Event × α) : List Event × α :=
  (r.1 ++ [Event.Unlock], r.2)

/-- The map literal `m` of `changeUserPassword` (lines 158-163), by its entries.
The order in which they are written here means nothing: the substitution
receives them in the order of `Database.rangeOrder`. -/
def changeUserPasswordMap (username password cluster : GoString) : List (GoString × GoString) :=
  [("name".toList, username), ("username".toList, username),
    ("password".toList, password), ("cluster".toList, cluster)]

/-- The body of `changeUserPassword` from `p.Lock()` on (lines 130-174),
before the deferred unlock.  The substitution of `ExecuteTxQueryDirect` ranges
over the map `m`: the loop is given the entries in the order `db.rangeOrder`
picks for this call. -/
def changeUserPasswordLocked (db : Database) (username : GoString) (stmts : List GoString)
    (password cluster : GoString) (tr : List Event) : List Event × Option GoString :=
  match getConnection db tr with
  | (tr, some err) => (tr, some (wrap "unable to get connection" err))
  | (tr, none) =>
    let res := db.QueryExists tr username
    let tr := tr ++ [Event.QueryExists username res]
    match res with
    | .err e => (tr, some (wrap "user does not appear to exist" e))
    | _ =>
      let err := db.BeginTx tr
      let tr := tr ++ [Event.BeginTx err]
      match err with
      | some err => (tr, some (wrap "unable to start transaction" err))
      | none =>
        deferRollback <|
          let m := db.rangeOrder tr (changeUserPasswordMap username password cluster)
          match execStatements db m stmts tr with
          | (tr, some err) => (tr, some (wrap "failed to execute query" err))
          | (tr, none) =>
            let err := db.Commit tr
            (tr ++ [Event.Commit err], err)

/-- The function `changeUserPassword` (lines 114-175). -/
def changeUserPassword (db : Database) (username : GoString) (changePass : ChangePassword)
    (tr : List Event) : List Event × Option GoString :=
  let stmts := changePass.Statements.Commands
  let stmts := if stmts.length = 0 then [defaultChangePasswordStatement] else stmts
  match getCluster db tr with
  | (tr, .error err) => (tr, some err)
  | (tr, .ok cluster) =>
    let password := changePass.NewPassword
    if password = [] then (tr, some "missing password".toList)
    else
      deferUnlock <|
        changeUserPasswordLocked db username stmts password cluster (tr ++ [Event.Lock])

/-- Modelled from the spec: `multierror.Append` of one error, library code that
is not part of the sources.  The error joins the collected ones; a nil error
adds nothing (spec 4.3, 9). -/
def multierrorAppend (merr : List GoString) (err : Option GoString) : List GoString :=
  match err with
  | none => merr
  | some e => merr ++ [e]

/-- Modelled from the spec: the method `ErrorOrNil` of `*multierror.Error`,
library code that is not part of the sources: nil when no error was collected,
the collected errors otherwise (spec 9, empty means success). -/
def ErrorOrNil (merr : List GoString) : Option GoError :=
  if merr.length = 0 then none else some (GoError.multierror merr)

/-- The function `UpdateUser`: the trace of the call and the error it returns. -/
def UpdateUser (db : Database) (req : UpdateUserRequest) (tr : List Event) :
    List Event × Option GoError :=
  if req.Username = [] then (tr, some (GoError.errorString "missing username".toList))
  else if req.Password = none ∧ req.Expiration = none then
    (tr, some (GoError.errorString "no changes requested".toList))
  else
    let merr : List GoString := []
    match req.Password with
    | some changePass =>
      let (tr, err) := changeUserPassword db req.Username changePass tr
      let merr := multierrorAppend merr err
      (tr, ErrorOrNil merr)
    | none => (tr, ErrorOrNil merr)

/-- The collaborators of the plugin that belong to libraries outside the
sources, as the functions they are used as: `Init` of the connection producer
(it may change the producer whether it succeeds or fails), `strutil.GetString`
on the configuration, and `NewTemplate` and `Generate` of the template
library. -/
structure Library (σ Config : Type) where
  Init : σ → Config → Bool → σ × Except GoString Config
  GetString : Config → GoString → Except GoString GoString
  NewTemplate : GoString → Except GoString StringTemplate
  Generate : StringTemplate → UsernameMetadata → Except GoString GoString

/-- The parameter map `m` of `NewUser` (lines 215-221). -/
def NewUserMap (req : NewUserRequest) (username expirationStr cluster : GoString) :
    List (GoString × GoString) :=
  [("name".toList, username), ("username".toList, username),
    ("password".toList, req.Password), ("expiration".toList, expirationStr),
    ("cluster".toList, cluster)]

/-- The body of `NewUser` from `db.BeginTx` succeeding on (lines 208-235),
before the deferred rollback. -/
def NewUserTx (db : Database) (req : NewUserRequest) (username expirationStr cluster : GoString)
    (tr : List Event) : List Event × Except GoString GoString :=
  let m := NewUserMap req username expirationStr cluster
  match execStatements db m req.Statements.Commands tr with
  | (tr, some err) => (tr, .error (wrap "failed to execute query" err))
  | (tr, none) =>
    let err := db.Commit tr
    let tr := tr ++ [Event.Commit err]
    match err with
    | some err => (tr, .error err)
    | none => (tr, .ok username)

/-- The body of `NewUser` from `p.Lock()` on (lines 185-235), before the
deferred unlock. -/
def NewUserLocked {σ Config : Type} (lib : Library σ Config) (db : Database) (p : Clickhouse σ)
    (req : NewUserRequest) (tr : List Event) : List Event × Except GoString GoString :=
  match getCluster db tr with
  | (tr, .error err) => (tr, .error err)
  | (tr, .ok cluster) =>
    match lib.Generate p.usernameProducer req.UsernameConfig with
    | .error err => (tr, .error err)
    | .ok username =>
      let expirationStr := req.Expiration.Format
      match getConnection db tr with
      | (tr, some err) => (tr, .error (wrap "unable to get connection" err))
      | (tr, none) =>
        let err := db.BeginTx tr
        let tr := tr ++ [Event.BeginTx err]
        match err with
        | some err => (tr, .error (wrap "unable to start transaction" err))
        | none => deferRollback (NewUserTx db req username expirationStr cluster tr)

/-- The function `NewUser`: the trace of the call, and the generated username of the
response or the error. -/
def NewUser {σ Config : Type} (lib : Library σ Config) (db : Database) (p : Clickhouse σ)
    (req : NewUserRequest) (tr : List Event) : List Event × Except GoString GoString :=
  if req.Statements.Commands.length = 0 then (tr, .error ErrEmptyCreationStatement)
  else deferUnlock (NewUserLocked lib db p req (tr ++ [Event.Lock]))

/-- The parameter map `m` of `customDeleteUser` (lines 270-273). -/
def customDeleteUserMap (username : GoString) : List (GoString × GoString) :=
  [("name".toList, username), ("username".toList, username)]

/-- The function `customDeleteUser` (lines 249-281). -/
def customDeleteUser (db : Database) (username : GoString) (revocationStmts : List GoString)
    (tr : List Event) : List Event × Option GoString :=
  match getConnection db tr with
  | (tr, some err) => (tr, some err)
  | (tr, none) =>
    let err := db.BeginTx tr
    let tr := tr ++ [Event.BeginTx err]
    match err with
    | some err => (tr, some err)
    | none =>
      deferRollback <|
        let m := customDeleteUserMap username
        match execStatements db m revocationStmts tr with
        | (tr, some err) => (tr, some err)
        | (tr, none) =>
          let err := db.Commit tr
          (tr ++ [Event.Commit err], err)

/-- The function `defaultDeleteUser` (lines 283-314). -/
def defaultDeleteUser (db : Database) (username : GoString) (tr : List Event) :
    List Event × Option GoString :=
  match getConnection db tr with
  | (tr, some err) => (tr, some err)
  | (tr, none) =>
    match getCluster db tr with
    | (tr, .error err) => (tr, some err)
    | (tr, .ok cluster) =>
      let res := db.QueryExists tr username
      let tr := tr ++ [Event.QueryExists username res]
      match res with
      | .err e => (tr, some e)
      | .ErrNoRows => (tr, none)
      | .row false => (tr, none)
      | .row true =>
        let err := db.DropUser tr username cluster
        let tr := tr ++ [Event.DropUser username cluster err]
        match err with
        | some err => (tr, some err)
        | none => (tr ++ [Event.Close], none)

/-- The function `DeleteUser`: the trace of the call and the error it returns. -/
def DeleteUser (db : Database) (req : DeleteUserRequest) (tr : List Event) :
    List Event × Option GoString :=
  deferUnlock <|
    let tr := tr ++ [Event.Lock]
    if req.Statements.Commands.length = 0 then defaultDeleteUser db req.Username tr
    else customDeleteUser db req.Username req.Statements.Commands tr

/-- The function `Initialize`: the plugin object after the call, and the configuration of
the response or the error. -/
def Initialize {σ Config : Type} (lib : Library σ Config) (p : Clickhouse σ) (config : Config)
    (verifyConnection : Bool) : Clickhouse σ × Except GoString Config :=
  match lib.Init p.SQLConnectionProducer config verifyConnection with
  | (producer, .error err) => ({ p with SQLConnectionProducer := producer }, .error err)
  | (producer, .ok newConf) =>
    let p := { p with SQLConnectionProducer := producer }
    match lib.GetString config "username_template".toList with
    | .error err => (p, .error (wrap "failed to retrieve username_template" err))
    | .ok usernameTemplate =>
      let usernameTemplate :=
        if usernameTemplate = [] then defaultUserNameTemplate else usernameTemplate
      match lib.NewTemplate usernameTemplate with
      | .error err => (p, .error (wrap "unable to initialize username template" err))
      | .ok up =>
        let p := { p with usernameProducer := up }
        match lib.Generate p.usernameProducer { DisplayName := [], RoleName := [] } with
        | .error err => (p, .error (wrap "invalid username template" err))
        | .ok _ => (p, .ok newConf)

/-! ## Reading a trace -/

/-- The queries handed to the transaction, in the order of the trace. -/
def handed : List Event → List GoString
  | [] => []
  | Event.TxExec query _ :: es => query :: handed es
  | _ :: es => handed es

/-- A call of the connection producer, the database or the transaction that
returned an error; `sql.ErrNoRows` of a scan is not one. -/
def Event.failed : Event → Bool
  | Event.Connection (some _) => true
  | Event.QueryCluster (.err _) => true
  | Event.QueryExists _ (.err _) => true
  | Event.BeginTx (some _) => true
  | Event.TxExec _ (some _) => true
  | Event.Commit (some _) => true
  | Event.DropUser _ _ (some _) => true
  | _ => false

/-- The events of the guard itself, `Lock` and `Unlock`. -/
def Event.isGuard : Event → Bool
  | Event.Lock => true
  | Event.Unlock => true
  | _ => false

/-- Every event other than `Lock` and `Unlock` happens while the guard is
held, the guard is not taken twice, and it is released at the end; `held` says
whether the guard is held at the start. -/
def guarded : Bool → List Event → Bool
  | held, [] => !held
  | held, Event.Lock :: es => !held && guarded true es
  | held, Event.Unlock :: es => held && guarded false es
  | held, _ :: es => held && guarded held es

/-- The statements whose effect persists after a trace: those a transaction
executed without error before its commit succeeded.  `pending` are the
statements of the open transaction; a rollback discards them. -/
def persisted : List GoString → List Event → List GoString
  | _, [] => []
  | _, Event.BeginTx none :: es => persisted [] es
  | pending, Event.TxExec query none :: es => persisted (pending ++ [query]) es
  | pending, Event.Commit none :: es => pending ++ persisted [] es
  | _, Event.Rollback :: es => persisted [] es
  | pending, _ :: es => persisted pending es

/-! ## The statement templater of the spec -/

/-- The spec's rule for one script (4.5): split on `;`, trim white space from
each piece, drop the empty pieces, substitute the placeholders. -/
def expandScript (m : List (GoString × GoString)) (script : GoString) : List GoString :=
  (((Split script ';').map TrimSpace).filter (fun piece => piece ≠ [])).map (parseQuery m)

/-- The statements of a list handed to the transaction one after the other, in
the order of the list, until one fails. -/
def handInOrder (db : Database) : List GoString → List Event → List Event × Option GoString
  | [], tr => (tr, none)
  | query :: queries, tr =>
    match db.TxExec tr query with
    | some err => (tr ++ [Event.TxExec query (some err)], some err)
    | none => handInOrder db queries (tr ++ [Event.TxExec query none])

/-! ## Databases and libraries of the examples -/

/-- A database on which every call succeeds, with cluster `c1` and every user
present. -/
def healthyDb : Database where
  Connection _ := none
  QueryCluster _ := .row "c1".toList
  QueryExists _ _ := .row true
  BeginTx _ := none
  TxExec _ _ := none
  Commit _ := none
  DropUser _ _ _ := none
  rangeOrder _ m := m
  rangeOrder_perm _ _ := List.Perm.refl _

/-- A database that cannot be reached. -/
def refusedDb : Database :=
  { healthyDb with Connection := fun _ => some "connection refused".toList }

/-- A database without the user asked for. -/
def noUserDb : Database :=
  { healthyDb with QueryExists := fun _ _ => .row false }

/-- A database on which every statement containing `GRANT` at its start is
refused. -/
def grantRefusedDb : Database :=
  { healthyDb with
    TxExec := fun _ query =>
      if "GRANT".toList.isPrefixOf query then some "access denied".toList else none }

/-- A template text that compiles and cannot be rendered. -/
def unrenderable : GoString := "\x7b\x7b truncate 0 .DisplayName \x7d\x7d".toList

/-- A template text that does not compile: an action that is not closed. -/
def unparsable : GoString := "\x7b\x7b".toList

/-- A library whose templates compile unless their text is `unparsable` and
render unless it is `unrenderable`; its configuration is the text of
`username_template` itself. -/
def sampleLibrary : Library Unit GoString where
  Init producer config _ := (producer, .ok config)
  GetString config _ := .ok config
  NewTemplate text :=
    if text = unparsable then .error "unable to parse template".toList else .ok ⟨text⟩
  Generate up _ :=
    if up.rawTemplate = unrenderable then .error "unable to apply template".toList
    else .ok "v-token".toList

/-- The plugin object of the examples, with the default username template. -/
def samplePlugin : Clickhouse Unit :=
  ⟨(), ⟨defaultUserNameTemplate⟩⟩

/-- A request to create a user and grant it rights. -/
def sampleNewUserRequest : NewUserRequest where
  UsernameConfig := { DisplayName := "svc".toList, RoleName := "ops".toList }
  Statements :=
    ⟨["CREATE USER '{{username}}' IDENTIFIED WITH plaintext_password '{{password}}'; GRANT ALL ON *.* TO '{{username}}';".toList]⟩
  Password := "p@ss".toList
  Expiration := ⟨2030, 1, 2, 3, 4, 5⟩

/-- A request to rotate the password of a user, without statements of its own. -/
def samplePasswordRequest : UpdateUserRequest :=
  ⟨"v-svc-ops-abc123-456".toList, some ⟨"newpass".toList, ⟨[]⟩⟩, none⟩

/-- A request to rotate to an empty password. -/
def emptyPasswordRequest : UpdateUserRequest :=
  ⟨"v-svc-ops-abc123-456".toList, some ⟨[], ⟨[]⟩⟩, none⟩

/-- A request to delete a user, without revocation statements. -/
def sampleDeleteRequest : DeleteUserRequest :=
  ⟨"v-svc-ops-abc123-456".toList, ⟨[]⟩⟩

/-- The lists got by putting `a` at one place of a list. -/
def insertions {α : Type} (a : α) : List α → List (List α)
  | [] => [[a]]
  | b :: l => (a :: b :: l) :: (insertions a l).map (fun r => b :: r)

/-- The orders in which the entries of a list can be visited. -/
def orders {α : Type} : List α → List (List α)
  | [] => [[]]
  | a :: l => (orders l).flatMap (insertions a)

/-- Go `strings.Contains`: whether `substr` occurs in `s`. -/
def Contains : GoString → GoString → Bool
  | [], substr => substr.isPrefixOf []
  | c :: cs, substr => substr.isPrefixOf (c :: cs) || Contains cs substr

/-- A value in which none of the placeholder tokens of `changeUserPasswordMap`
occurs: `{{name}}`, `{{username}}`, `{{password}}`, `{{cluster}}`. -/
def placeholderFree (value : GoString) : Bool :=
  !Contains value "{{name}}".toList && !Contains value "{{username}}".toList
    && !Contains value "{{password}}".toList && !Contains value "{{cluster}}".toList

/-- A request to rotate to a password that is a placeholder token, for a user
whose name is one too. -/
def placeholderRequest : UpdateUserRequest :=
  ⟨"{{password}}".toList, some ⟨"{{username}}".toList, ⟨[]⟩⟩, none⟩

/-- The default query with a part of its placeholders substituted: `su`, `sp`
and `sc` say whether the username, the password and the cluster are. -/
def partlySubstituted (u pw c : GoString) (su sp sc : Bool) : GoString :=
  "ALTER USER '".toList ++ ((if su then u else "{{username}}".toList)
    ++ ("' IDENTIFIED WITH plaintext_password '".toList
      ++ ((if sp then pw else "{{password}}".toList)
        ++ ("' ON CLUSTER '".toList ++ ((if sc then c else "{{cluster}}".toList)
          ++ "'".toList)))))

/-! ## Traces of the steps -/

theorem getConnection_eq (db : Database) (tr : List Event) :
    getConnection db tr = (tr ++ [Event.Connection (db.Connection tr)], db.Connection tr) := rfl

theorem guarded_append_quiet (evs rest : List Event) (h : ∀ e ∈ evs, e.isGuard = false) :
    guarded true (evs ++ rest) = guarded true rest := by
  induction evs with
  | nil => rfl
  | cons e es ih =>
    have he := h e (List.mem_cons_self _ _)
    have ih' := ih (fun x hx => h x (List.mem_cons_of_mem _ hx))
    cases e <;> simp_all [guarded, Event.isGuard]

theorem getCluster_trace (db : Database) (tr : List Event) :
    ∃ evs, (getCluster db tr).1 = tr ++ Event.Connection (db.Connection tr) :: evs
      ∧ ∀ e ∈ evs, e.isGuard = false := by
  unfold getCluster
  rw [getConnection_eq]
  cases hc : db.Connection tr with
  | some err => exact ⟨[], by simp⟩
  | none =>
    refine ⟨[Event.QueryCluster (db.QueryCluster (tr ++ [Event.Connection none]))], ?_, ?_⟩
    · cases hq : db.QueryCluster (tr ++ [Event.Connection none]) <;> simp [hq]
    · simp [Event.isGuard]

theorem execQueries_trace (db : Database) (m : List (GoString × GoString))
    (queries : List GoString) (tr : List Event) :
    ∃ evs, (execQueries db m queries tr).1 = tr ++ evs ∧ ∀ e ∈ evs, e.isGuard = false := by
  induction queries generalizing tr with
  | nil => exact ⟨[], by simp [execQueries]⟩
  | cons q qs ih =>
    unfold execQueries
    by_cases hq : (TrimSpace q).length = 0
    · simpa [hq] using ih tr
    · simp only [hq, if_false, ExecuteTxQueryDirect]
      cases he : db.TxExec tr (parseQuery m (TrimSpace q)) with
      | some err => exact ⟨[Event.TxExec _ (some err)], rfl, by simp [Event.isGuard]⟩
      | none =>
        obtain ⟨evs, h1, h2⟩ := ih (tr ++ [Event.TxExec (parseQuery m (TrimSpace q)) none])
        refine ⟨Event.TxExec (parseQuery m (TrimSpace q)) none :: evs, ?_, ?_⟩
        · simp [h1]
        · intro e he'
          rcases List.mem_cons.1 he' with rfl | h
          · rfl
          · exact h2 e h

theorem execStatements_trace (db : Database) (m : List (GoString × GoString))
    (stmts : List GoString) (tr : List Event) :
    ∃ evs, (execStatements db m stmts tr).1 = tr ++ evs ∧ ∀ e ∈ evs, e.isGuard = false := by
  induction stmts generalizing tr with
  | nil => exact ⟨[], by simp [execStatements]⟩
  | cons s ss ih =>
    unfold execStatements
    obtain ⟨evs, h1, h2⟩ := execQueries_trace db m (ParseArbitraryStringSlice s ';') tr
    rcases hq : execQueries db m (ParseArbitraryStringSlice s ';') tr with ⟨tr1, _ | err⟩
    · rw [hq] at h1
      simp only at h1 ⊢
      obtain ⟨evs2, h3, h4⟩ := ih tr1
      refine ⟨evs ++ evs2, ?_, ?_⟩
      · rw [h3, h1, List.append_assoc]
      · intro e he
        rcases List.mem_append.1 he with h | h
        · exact h2 e h
        · exact h4 e h
    · rw [hq] at h1
      exact ⟨evs, h1, h2⟩

/-! ## Trimming and splitting -/

theorem TrimSpace_eq (s : GoString) :
    TrimSpace s = (s.dropWhile isSpace).rdropWhile isSpace := rfl

theorem rdropWhile_cons_pos {α : Type} (p : α → Bool) (c : α) (cs : List α)
    (hcs : cs.rdropWhile p = []) (hc : p c = true) : (c :: cs).rdropWhile p = [] := by
  rw [List.rdropWhile_eq_nil_iff] at hcs ⊢
  intro x hx
  rcases List.mem_cons.1 hx with rfl | h
  · exact hc
  · exact hcs x h

theorem rdropWhile_cons_neg {α : Type} (p : α → Bool) (c : α) (cs : List α)
    (h : ¬(cs.rdropWhile p = [] ∧ p c = true)) :
    (c :: cs).rdropWhile p = c :: cs.rdropWhile p := by
  unfold List.rdropWhile at h ⊢
  rw [List.reverse_cons, List.dropWhile_append]
  cases hd : List.dropWhile p cs.reverse with
  | nil =>
    have hc : ¬ p c = true := fun hc => h ⟨by simp [hd], hc⟩
    simp [hc]
  | cons x xs => simp

theorem dropWhile_rdropWhile_comm {α : Type} (p : α → Bool) (s : List α) :
    (s.rdropWhile p).dropWhile p = (s.dropWhile p).rdropWhile p := by
  induction s with
  | nil => simp
  | cons c cs ih =>
    by_cases hc : p c = true
    · rw [List.dropWhile_cons_of_pos hc, ← ih]
      by_cases hn : cs.rdropWhile p = []
      · rw [rdropWhile_cons_pos p c cs hn hc, hn]
      · rw [rdropWhile_cons_neg p c cs (fun h => hn h.1), List.dropWhile_cons_of_pos hc]
    · rw [List.dropWhile_cons_of_neg hc, rdropWhile_cons_neg p c cs (fun h => hc h.2),
        List.dropWhile_cons_of_neg hc]

theorem Split_ne_nil (s : GoString) (sep : Char) : Split s sep ≠ [] := by
  cases s with
  | nil => simp [Split]
  | cons c cs =>
    unfold Split
    split
    · simp
    · split <;> simp

theorem Split_cons_sep (cs : GoString) (sep : Char) :
    Split (sep :: cs) sep = [] :: Split cs sep := by
  simp [Split]

theorem Split_cons_ne (c : Char) (cs : GoString) (sep : Char) (h : c ≠ sep) :
    ∃ piece pieces, Split cs sep = piece :: pieces
      ∧ Split (c :: cs) sep = (c :: piece) :: pieces := by
  cases hs : Split cs sep with
  | nil => exact absurd hs (Split_ne_nil cs sep)
  | cons piece pieces =>
    refine ⟨piece, pieces, rfl, ?_⟩
    simp [Split, h, hs]

theorem ne_of_isSpace {c sep : Char} (hsep : isSpace sep = false) (hc : isSpace c = true) :
    c ≠ sep := by
  rintro rfl
  rw [hsep] at hc
  exact Bool.noConfusion hc

/-- Pieces of a script whose leading white space is removed: the same, up to
their own leading white space. -/
theorem Split_dropWhile (s : GoString) (sep : Char) (hsep : isSpace sep = false) :
    (Split (s.dropWhile isSpace) sep).map (List.dropWhile isSpace)
      = (Split s sep).map (List.dropWhile isSpace) := by
  induction s with
  | nil => rfl
  | cons c cs ih =>
    by_cases hc : isSpace c = true
    · obtain ⟨piece, pieces, h1, h2⟩ := Split_cons_ne c cs sep (ne_of_isSpace hsep hc)
      rw [List.dropWhile_cons_of_pos hc, ih, h2, h1]
      simp [List.dropWhile_cons_of_pos hc]
    · rw [List.dropWhile_cons_of_neg hc]

theorem Split_rdropWhile (s : GoString) (sep : Char) (hsep : isSpace sep = false) :
    (Split (s.rdropWhile isSpace) sep).map (List.rdropWhile isSpace)
      = (Split s sep).map (List.rdropWhile isSpace) := by
  induction s with
  | nil => rfl
  | cons c cs ih =>
    by_cases hn : cs.rdropWhile isSpace = [] ∧ isSpace c = true
    · obtain ⟨piece, pieces, h1, h2⟩ := Split_cons_ne c cs sep (ne_of_isSpace hsep hn.2)
      rw [hn.1, h1] at ih
      rw [rdropWhile_cons_pos _ c cs hn.1 hn.2, h2]
      simp only [Split, List.map_cons, List.map_nil] at ih ⊢
      injection ih with ha hb
      have hp : piece.rdropWhile isSpace = [] := by
        simpa using ha.symm
      rw [rdropWhile_cons_pos _ c piece hp hn.2, ← hb]
      simp
    · rw [rdropWhile_cons_neg _ c cs hn]
      by_cases hne : c = sep
      · subst hne
        rw [Split_cons_sep, Split_cons_sep, List.map_cons, List.map_cons, ih]
      · obtain ⟨piece, pieces, h1, h2⟩ := Split_cons_ne c cs sep hne
        obtain ⟨piece', pieces', h1', h2'⟩ := Split_cons_ne c (cs.rdropWhile isSpace) sep hne
        rw [h1, h1'] at ih
        rw [h2, h2']
        simp only [List.map_cons] at ih ⊢
        injection ih with ha hb
        rw [hb]
        congr 1
        by_cases hq : piece.rdropWhile isSpace = [] ∧ isSpace c = true
        · rw [rdropWhile_cons_pos _ c piece hq.1 hq.2,
            rdropWhile_cons_pos _ c piece' (ha.trans hq.1) hq.2]
        · rw [rdropWhile_cons_neg _ c piece hq,
            rdropWhile_cons_neg _ c piece' (fun h => hq ⟨ha ▸ h.1, h.2⟩), ha]

/-- Trimming the script first does not change its trimmed pieces. -/
theorem Split_TrimSpace (s : GoString) (sep : Char) (hsep : isSpace sep = false) :
    (Split (TrimSpace s) sep).map TrimSpace = (Split s sep).map TrimSpace := by
  have hfun : TrimSpace = List.rdropWhile isSpace ∘ List.dropWhile isSpace := rfl
  have hfun' : TrimSpace = List.dropWhile isSpace ∘ List.rdropWhile isSpace := by
    funext x
    simp [TrimSpace_eq, dropWhile_rdropWhile_comm]
  calc (Split (TrimSpace s) sep).map TrimSpace
      = ((Split ((s.dropWhile isSpace).rdropWhile isSpace) sep).map
          (List.rdropWhile isSpace)).map (List.dropWhile isSpace) := by
        rw [List.map_map, ← hfun', TrimSpace_eq]
    _ = ((Split (s.dropWhile isSpace) sep).map
          (List.rdropWhile isSpace)).map (List.dropWhile isSpace) := by
        rw [Split_rdropWhile _ sep hsep]
    _ = ((Split (s.dropWhile isSpace) sep).map
          (List.dropWhile isSpace)).map (List.rdropWhile isSpace) := by
        rw [List.map_map, List.map_map, ← hfun', hfun]
    _ = ((Split s sep).map (List.dropWhile isSpace)).map (List.rdropWhile isSpace) := by
        rw [Split_dropWhile _ sep hsep]
    _ = (Split s sep).map TrimSpace := by
        rw [List.map_map, ← hfun]

theorem TrimSpace_idem (s : GoString) : TrimSpace (TrimSpace s) = TrimSpace s := by
  rw [TrimSpace_eq (TrimSpace s), TrimSpace_eq s, dropWhile_rdropWhile_comm,
    List.dropWhile_idempotent, List.rdropWhile_idempotent]

theorem TrimSpace_eq_nil_iff (s : GoString) : TrimSpace s = [] ↔ ∀ c ∈ s, isSpace c = true := by
  rw [TrimSpace_eq, List.rdropWhile_eq_nil_iff]
  constructor
  · intro h c hc
    by_contra hn
    have hmem : c ∈ s.dropWhile isSpace := by
      induction s with
      | nil => cases hc
      | cons x xs ih =>
        by_cases hx : isSpace x = true
        · rw [List.dropWhile_cons_of_pos hx]
          rcases List.mem_cons.1 hc with rfl | h'
          · exact absurd hx hn
          · rw [List.dropWhile_cons_of_pos hx] at h
            exact ih h h'
        · rw [List.dropWhile_cons_of_neg hx]
          exact hc
    exact hn (h c hmem)
  · intro h c hc
    exact h c ((List.dropWhile_sublist _).subset hc)

theorem Split_of_not_mem (s : GoString) (sep : Char) (h : sep ∉ s) : Split s sep = [s] := by
  induction s with
  | nil => rfl
  | cons c cs ih =>
    have hne : c ≠ sep := fun e => h (e ▸ List.mem_cons_self _ _)
    have hcs : sep ∉ cs := fun hm => h (List.mem_cons_of_mem _ hm)
    simp [Split, hne, ih hcs]

/-- The pieces the plugin keeps of `ParseArbitraryStringSlice` are the non-empty
trimmed pieces of the script. -/
theorem kept_pieces (s : GoString) (sep : Char) (hsep : isSpace sep = false) :
    ((ParseArbitraryStringSlice s sep).map TrimSpace).filter (fun piece => piece ≠ [])
      = ((Split s sep).map TrimSpace).filter (fun piece => piece ≠ []) := by
  unfold ParseArbitraryStringSlice
  by_cases h : TrimSpace s = []
  · have hall := (TrimSpace_eq_nil_iff s).1 h
    have hnot : sep ∉ s := fun hm => by
      have := hall sep hm
      rw [hsep] at this
      exact Bool.noConfusion this
    simp [h, Split_of_not_mem s sep hnot]
  · simp only [h, if_false, List.map_map]
    have : (TrimSpace ∘ TrimSpace) = TrimSpace := by
      funext x
      exact TrimSpace_idem x
    rw [this, Split_TrimSpace s sep hsep]

theorem execQueries_eq_handInOrder (db : Database) (m : List (GoString × GoString))
    (pieces : List GoString) (tr : List Event) :
    execQueries db m pieces tr
      = handInOrder db
          (((pieces.map TrimSpace).filter (fun piece => piece ≠ [])).map (parseQuery m)) tr := by
  induction pieces generalizing tr with
  | nil => rfl
  | cons q qs ih =>
    unfold execQueries
    by_cases hq : TrimSpace q = []
    · simp [hq, ih]
    · have hlen : ¬ (TrimSpace q).length = 0 := fun h => hq (List.length_eq_zero.1 h)
      simp only [hlen, if_false, List.map_cons, ExecuteTxQueryDirect]
      rw [List.filter_cons_of_pos (by simpa using hq), List.map_cons, handInOrder]
      cases he : db.TxExec tr (parseQuery m (TrimSpace q)) with
      | some err => rfl
      | none => exact ih _

theorem handInOrder_append (db : Database) (a b : List GoString) (tr : List Event) :
    handInOrder db (a ++ b) tr
      = match handInOrder db a tr with
        | (tr, some err) => (tr, some err)
        | (tr, none) => handInOrder db b tr := by
  induction a generalizing tr with
  | nil => rfl
  | cons q qs ih =>
    simp only [List.cons_append, handInOrder]
    cases he : db.TxExec tr q with
    | some err => rfl
    | none => exact ih _

theorem execStatements_eq_handInOrder (db : Database) (m : List (GoString × GoString))
    (stmts : List GoString) (tr : List Event) :
    execStatements db m stmts tr = handInOrder db (stmts.flatMap (expandScript m)) tr := by
  induction stmts generalizing tr with
  | nil => rfl
  | cons s ss ih =>
    rw [execStatements, List.flatMap_cons, handInOrder_append, execQueries_eq_handInOrder,
      kept_pieces s ';' (by decide)]
    unfold expandScript
    rcases handInOrder db _ tr with ⟨tr1, _ | err⟩
    · exact ih tr1
    · rfl

/-- What handing a list over leaves in the trace: all of it executed, or the
statements before the first that fails executed and then the failing one. -/
theorem handInOrder_cases (db : Database) (queries : List GoString) (tr : List Event) :
    handInOrder db queries tr
        = (tr ++ queries.map (fun q => Event.TxExec q none), none)
      ∨ ∃ done q rest err, queries = done ++ q :: rest
          ∧ handInOrder db queries tr
            = (tr ++ done.map (fun q => Event.TxExec q none) ++ [Event.TxExec q (some err)],
                some err) := by
  induction queries generalizing tr with
  | nil => exact Or.inl (by simp [handInOrder])
  | cons q qs ih =>
    unfold handInOrder
    cases he : db.TxExec tr q with
    | some err => exact Or.inr ⟨[], q, qs, err, rfl, by simp⟩
    | none =>
      rcases ih (tr ++ [Event.TxExec q none]) with h | ⟨done, q', rest, err, h1, h2⟩
      · exact Or.inl (by simp [h])
      · exact Or.inr ⟨q :: done, q', rest, err, by simp [h1], by simp [h2]⟩

/-! ## The calls, case by case -/

theorem handed_append (a b : List Event) : handed (a ++ b) = handed a ++ handed b := by
  induction a with
  | nil => rfl
  | cons e es ih => cases e <;> simp [handed, ih]

theorem handed_map_TxExec (queries : List GoString) :
    handed (queries.map (fun q => Event.TxExec q none)) = queries := by
  induction queries with
  | nil => rfl
  | cons q qs ih => simp [handed, ih]

theorem persisted_map_TxExec (pending queries : List GoString) (rest : List Event) :
    persisted pending (queries.map (fun q => Event.TxExec q none) ++ rest)
      = persisted (pending ++ queries) rest := by
  induction queries generalizing pending with
  | nil => simp
  | cons q qs ih => simp [persisted, ih]

theorem getCluster_cases (db : Database) (tr : List Event) :
    (∃ err, getCluster db tr = (tr ++ [Event.Connection (some err)], .error err))
      ∨ (∃ err, getCluster db tr
          = (tr ++ [Event.Connection none, Event.QueryCluster (.err err)], .error err))
      ∨ ∃ res cluster, getCluster db tr
          = (tr ++ [Event.Connection none, Event.QueryCluster res], .ok cluster) := by
  unfold getCluster
  rw [getConnection_eq]
  cases hc : db.Connection tr with
  | some err => exact Or.inl ⟨err, by simp⟩
  | none =>
    cases hq : db.QueryCluster (tr ++ [Event.Connection none]) with
    | row c => exact Or.inr (Or.inr ⟨.row c, c, by simp [hq]⟩)
    | ErrNoRows => exact Or.inr (Or.inr ⟨.ErrNoRows, [], by simp [hq]⟩)
    | err e => exact Or.inr (Or.inl ⟨e, by simp [hq]⟩)

theorem NewUserTx_cases (db : Database) (req : NewUserRequest)
    (username expirationStr cluster : GoString) (tr : List Event) :
    (∃ ce, NewUserTx db req username expirationStr cluster tr
        = (tr ++ (req.Statements.Commands.flatMap
              (expandScript (NewUserMap req username expirationStr cluster))).map
                (fun q => Event.TxExec q none)
            ++ [Event.Commit ce],
          match ce with
          | some err => .error err
          | none => .ok username))
      ∨ ∃ done q rest err,
          req.Statements.Commands.flatMap
              (expandScript (NewUserMap req username expirationStr cluster)) = done ++ q :: rest
          ∧ NewUserTx db req username expirationStr cluster tr
            = (tr ++ done.map (fun q => Event.TxExec q none) ++ [Event.TxExec q (some err)],
                .error (wrap "failed to execute query" err)) := by
  unfold NewUserTx
  simp only [execStatements_eq_handInOrder]
  rcases handInOrder_cases db (req.Statements.Commands.flatMap
      (expandScript (NewUserMap req username expirationStr cluster))) tr
    with h | ⟨done, q, rest, err, h1, h2⟩
  · left
    rw [h]
    refine ⟨db.Commit (tr ++ List.map (fun q => Event.TxExec q none)
      (req.Statements.Commands.flatMap
        (expandScript (NewUserMap req username expirationStr cluster)))), ?_⟩
    simp only
    cases db.Commit _ <;> rfl
  · right
    exact ⟨done, q, rest, err, h1, by rw [h2]⟩

/-- The ways a call of `NewUser` with a non-empty script can go. -/
theorem NewUser_cases {σ Config : Type} (lib : Library σ Config) (db : Database)
    (p : Clickhouse σ) (req : NewUserRequest) (tr : List Event)
    (hscript : req.Statements.Commands ≠ []) :
    (∃ before err, NewUser lib db p req tr
        = (tr ++ Event.Lock :: before ++ [Event.Unlock], .error err)
        ∧ ∀ e ∈ before, (∃ x, e = Event.Connection x) ∨ (∃ x, e = Event.QueryCluster x)
            ∨ ∃ x, e = Event.BeginTx (some x))
      ∨ ∃ res username cluster,
          lib.Generate p.usernameProducer req.UsernameConfig = .ok username
          ∧ (getCluster db (tr ++ [Event.Lock])).2 = .ok cluster
          ∧ ((∃ ce, NewUser lib db p req tr
                = (tr ++ [Event.Lock, Event.Connection none, Event.QueryCluster res,
                      Event.Connection none, Event.BeginTx none]
                    ++ (req.Statements.Commands.flatMap (expandScript
                          (NewUserMap req username req.Expiration.Format cluster))).map
                        (fun q => Event.TxExec q none)
                    ++ [Event.Commit ce, Event.Rollback, Event.Unlock],
                  match ce with
                  | some err => .error err
                  | none => .ok username))
            ∨ ∃ done q rest err,
                req.Statements.Commands.flatMap (expandScript
                    (NewUserMap req username req.Expiration.Format cluster)) = done ++ q :: rest
                ∧ NewUser lib db p req tr
                  = (tr ++ [Event.Lock, Event.Connection none, Event.QueryCluster res,
                        Event.Connection none, Event.BeginTx none]
                      ++ done.map (fun q => Event.TxExec q none)
                      ++ [Event.TxExec q (some err), Event.Rollback, Event.Unlock],
                    .error (wrap "failed to execute query" err))) := by
  have hlen : ¬ req.Statements.Commands.length = 0 := fun h => hscript (List.length_eq_zero.1 h)
  unfold NewUser
  simp only [hlen, if_false, deferUnlock]
  unfold NewUserLocked
  rcases getCluster_cases db (tr ++ [Event.Lock]) with ⟨e, h⟩ | ⟨e, h⟩ | ⟨res, c, h⟩
  · left
    exact ⟨[Event.Connection (some e)], e, by simp [h], by simp⟩
  · left
    exact ⟨[Event.Connection none, Event.QueryCluster (.err e)], e, by simp [h], by simp⟩
  · rw [h]
    simp only
    cases hgen : lib.Generate p.usernameProducer req.UsernameConfig with
    | error e =>
      left
      exact ⟨[Event.Connection none, Event.QueryCluster res], e, by simp, by simp⟩
    | ok username =>
      simp only [getConnection_eq]
      cases hconn : db.Connection (tr ++ [Event.Lock] ++ [Event.Connection none,
          Event.QueryCluster res]) with
      | some e =>
        left
        exact ⟨[Event.Connection none, Event.QueryCluster res, Event.Connection (some e)],
          wrap "unable to get connection" e, by simp, by simp⟩
      | none =>
        simp only
        cases hb : db.BeginTx (tr ++ [Event.Lock] ++ [Event.Connection none,
            Event.QueryCluster res] ++ [Event.Connection none]) with
        | some e =>
          left
          exact ⟨[Event.Connection none, Event.QueryCluster res, Event.Connection none,
            Event.BeginTx (some e)], wrap "unable to start transaction" e, by simp, by simp⟩
        | none =>
          right
          simp only [deferRollback]
          refine ⟨res, username, c, rfl, rfl, ?_⟩
          rcases NewUserTx_cases db req username req.Expiration.Format c
              (tr ++ [Event.Lock] ++ [Event.Connection none, Event.QueryCluster res]
                ++ [Event.Connection none] ++ [Event.BeginTx none])
            with ⟨ce, h2⟩ | ⟨done, q, rest, err, h1, h2⟩
          · left
            exact ⟨ce, by rw [h2]; simp⟩
          · right
            exact ⟨done, q, rest, err, h1, by rw [h2]; simp⟩

theorem changeUserPasswordTx_cases (db : Database) (username : GoString)
    (stmts : List GoString) (password cluster : GoString) (res : ScanResult Bool)
    (tr : List Event)
    (hres : db.QueryExists (tr ++ [Event.Connection none]) username = res)
    (hconn : db.Connection tr = none) (hne : ∀ e, res ≠ .err e) :
    (∃ before err, changeUserPasswordLocked db username stmts password cluster tr
        = (tr ++ before, some err)
        ∧ handed before = [] ∧ (∃ e ∈ before, e.failed = true)
        ∧ ∀ e ∈ before, e.isGuard = false)
      ∨ ∃ m, m.Perm (changeUserPasswordMap username password cluster)
          ∧ ((∃ ce, changeUserPasswordLocked db username stmts password cluster tr
              = (tr ++ [Event.Connection none, Event.QueryExists username res,
                    Event.BeginTx none]
                  ++ (stmts.flatMap (expandScript m)).map (fun q => Event.TxExec q none)
                  ++ [Event.Commit ce, Event.Rollback], ce))
            ∨ ∃ done q rest err,
              stmts.flatMap (expandScript m) = done ++ q :: rest
              ∧ changeUserPasswordLocked db username stmts password cluster tr
                = (tr ++ [Event.Connection none, Event.QueryExists username res,
                      Event.BeginTx none]
                    ++ done.map (fun q => Event.TxExec q none)
                    ++ [Event.TxExec q (some err), Event.Rollback],
                  some (wrap "failed to execute query" err))) := by
  have hbody : changeUserPasswordLocked db username stmts password cluster tr
      = match db.BeginTx (tr ++ [Event.Connection none]
            ++ [Event.QueryExists username res]) with
        | some err => (tr ++ [Event.Connection none] ++ [Event.QueryExists username res]
            ++ [Event.BeginTx (some err)], some (wrap "unable to start transaction" err))
        | none =>
          deferRollback <|
            match handInOrder db (stmts.flatMap (expandScript
                (db.rangeOrder (tr ++ [Event.Connection none]
                    ++ [Event.QueryExists username res] ++ [Event.BeginTx none])
                  (changeUserPasswordMap username password cluster))))
                (tr ++ [Event.Connection none] ++ [Event.QueryExists username res]
                  ++ [Event.BeginTx none]) with
            | (tr, some err) => (tr, some (wrap "failed to execute query" err))
            | (tr, none) => (tr ++ [Event.Commit (db.Commit tr)], db.Commit tr) := by
    unfold changeUserPasswordLocked
    simp only [getConnection_eq, hconn, hres, execStatements_eq_handInOrder]
    cases res with
    | err e => exact absurd rfl (hne e)
    | row b => cases db.BeginTx _ <;> rfl
    | ErrNoRows => cases db.BeginTx _ <;> rfl
  rw [hbody]
  cases hb : db.BeginTx (tr ++ [Event.Connection none]
      ++ [Event.QueryExists username res]) with
  | some e =>
    left
    refine ⟨[Event.Connection none, Event.QueryExists username res, Event.BeginTx (some e)],
      wrap "unable to start transaction" e, by simp, by simp [handed],
      ⟨Event.BeginTx (some e), by simp, rfl⟩, by simp [Event.isGuard]⟩
  | none =>
    right
    refine ⟨db.rangeOrder (tr ++ [Event.Connection none]
        ++ [Event.QueryExists username res] ++ [Event.BeginTx none])
      (changeUserPasswordMap username password cluster), db.rangeOrder_perm _ _, ?_⟩
    simp only [deferRollback]
    rcases handInOrder_cases db (stmts.flatMap (expandScript
        (db.rangeOrder (tr ++ [Event.Connection none]
            ++ [Event.QueryExists username res] ++ [Event.BeginTx none])
          (changeUserPasswordMap username password cluster))))
        (tr ++ [Event.Connection none] ++ [Event.QueryExists username res]
          ++ [Event.BeginTx none]) with h | ⟨done, q, rest, err, h1, h2⟩
    · left
      rw [h]
      exact ⟨db.Commit (tr ++ [Event.Connection none] ++ [Event.QueryExists username res]
        ++ [Event.BeginTx none] ++ List.map (fun q => Event.TxExec q none)
          (stmts.flatMap (expandScript
            (db.rangeOrder (tr ++ [Event.Connection none]
                ++ [Event.QueryExists username res] ++ [Event.BeginTx none])
              (changeUserPasswordMap username password cluster))))),
        by simp⟩
    · right
      rw [h2]
      exact ⟨done, q, rest, err, h1, by simp⟩

theorem changeUserPasswordLocked_cases (db : Database) (username : GoString)
    (stmts : List GoString) (password cluster : GoString) (tr : List Event) :
    (∃ before err, changeUserPasswordLocked db username stmts password cluster tr
        = (tr ++ before, some err)
        ∧ handed before = [] ∧ (∃ e ∈ before, e.failed = true)
        ∧ ∀ e ∈ before, e.isGuard = false)
      ∨ ∃ res m, m.Perm (changeUserPasswordMap username password cluster)
          ∧ ((∃ ce, changeUserPasswordLocked db username stmts password cluster tr
              = (tr ++ [Event.Connection none, Event.QueryExists username res,
                    Event.BeginTx none]
                  ++ (stmts.flatMap (expandScript m)).map (fun q => Event.TxExec q none)
                  ++ [Event.Commit ce, Event.Rollback], ce))
            ∨ ∃ done q rest err,
              stmts.flatMap (expandScript m) = done ++ q :: rest
              ∧ changeUserPasswordLocked db username stmts password cluster tr
                = (tr ++ [Event.Connection none, Event.QueryExists username res,
                      Event.BeginTx none]
                    ++ done.map (fun q => Event.TxExec q none)
                    ++ [Event.TxExec q (some err), Event.Rollback],
                  some (wrap "failed to execute query" err))) := by
  cases hc : db.Connection tr with
  | some e =>
    left
    refine ⟨[Event.Connection (some e)], wrap "unable to get connection" e, ?_,
      by simp [handed], by simp [Event.failed], by simp [Event.isGuard]⟩
    unfold changeUserPasswordLocked
    simp [getConnection_eq, hc]
  | none =>
    cases hq : db.QueryExists (tr ++ [Event.Connection none]) username with
    | err e =>
      left
      refine ⟨[Event.Connection none, Event.QueryExists username (.err e)],
        wrap "user does not appear to exist" e, ?_,
        by simp [handed], by simp [Event.failed], by simp [Event.isGuard]⟩
      unfold changeUserPasswordLocked
      simp [getConnection_eq, hc, hq]
    | row b =>
      rcases changeUserPasswordTx_cases db username stmts password cluster (.row b) tr hq hc
        (by simp) with h | h
      · exact Or.inl h
      · exact Or.inr ⟨_, h⟩
    | ErrNoRows =>
      rcases changeUserPasswordTx_cases db username stmts password cluster .ErrNoRows tr hq hc
        (by simp) with h | h
      · exact Or.inl h
      · exact Or.inr ⟨_, h⟩

theorem kept_pieces_default :
    ((Split defaultChangePasswordStatement ';').map TrimSpace).filter (fun piece => piece ≠ [])
      = [defaultChangePasswordQuery] := by
  decide

theorem expandScript_default (m : List (GoString × GoString)) :
    expandScript m defaultChangePasswordStatement = [parseQuery m defaultChangePasswordQuery] := by
  unfold expandScript
  rw [kept_pieces_default]
  rfl

theorem changeUserPassword_cases (db : Database) (username : GoString)
    (changePass : ChangePassword) (tr : List Event) :
    (∃ before err, changeUserPassword db username changePass tr
        = (tr ++ Event.Connection (db.Connection tr) :: before, some err)
        ∧ ∃ e ∈ Event.Connection (db.Connection tr) :: before, e.failed = true)
      ∨ (∃ res, changePass.NewPassword = []
          ∧ changeUserPassword db username changePass tr
            = (tr ++ [Event.Connection none, Event.QueryCluster res],
                some "missing password".toList))
      ∨ ∃ res cluster,
          getCluster db tr = (tr ++ [Event.Connection none, Event.QueryCluster res], .ok cluster)
          ∧ changeUserPassword db username changePass tr
            = deferUnlock (changeUserPasswordLocked db username
                (if changePass.Statements.Commands.length = 0
                  then [defaultChangePasswordStatement] else changePass.Statements.Commands)
                changePass.NewPassword cluster
                (tr ++ [Event.Connection none, Event.QueryCluster res] ++ [Event.Lock])) := by
  unfold changeUserPassword
  rcases getCluster_cases db tr with ⟨e, h⟩ | ⟨e, h⟩ | ⟨res, c, h⟩
  · left
    have hc : db.Connection tr = some e := by
      have := congrArg Prod.fst h
      obtain ⟨evs, h1, -⟩ := getCluster_trace db tr
      rw [h1] at this
      simp at this
      exact this.1
    exact ⟨[], e, by rw [h, hc], by simp [hc, Event.failed]⟩
  · left
    have hc : db.Connection tr = none := by
      have := congrArg Prod.fst h
      obtain ⟨evs, h1, -⟩ := getCluster_trace db tr
      rw [h1] at this
      simp at this
      exact this.1
    exact ⟨[Event.QueryCluster (.err e)], e, by rw [h, hc], by simp [Event.failed]⟩
  · have hc : db.Connection tr = none := by
      have := congrArg Prod.fst h
      obtain ⟨evs, h1, -⟩ := getCluster_trace db tr
      rw [h1] at this
      simp at this
      exact this.1
    right
    by_cases hp : changePass.NewPassword = []
    · left
      exact ⟨res, hp, by rw [h]; simp [hp]⟩
    · right
      exact ⟨res, c, h, by rw [h]; simp [hp]⟩

theorem UpdateUser_password (db : Database) (req : UpdateUserRequest) (tr : List Event)
    (changePass : ChangePassword) (hname : req.Username ≠ [])
    (hpass : req.Password = some changePass) :
    UpdateUser db req tr
      = ((changeUserPassword db req.Username changePass tr).1,
          match (changeUserPassword db req.Username changePass tr).2 with
          | none => none
          | some err => some (GoError.multierror [err])) := by
  simp only [UpdateUser, hname, hpass]
  rcases changeUserPassword db req.Username changePass tr with ⟨tr1, _ | err⟩ <;>
    simp [multierrorAppend, ErrorOrNil]

/-- The trace of a password rotation with the default statement in which no
call fails. -/
theorem UpdateUser_default_trace (db : Database) (req : UpdateUserRequest)
    (tr : List Event) (changePass : ChangePassword) (hname : req.Username ≠ [])
    (hpass : req.Password = some changePass) (hpw : changePass.NewPassword ≠ [])
    (hdefault : changePass.Statements.Commands = []) :
    ∃ evs, (UpdateUser db req tr).1 = tr ++ evs
      ∧ ((∀ e ∈ evs, e.failed = false) →
          ∃ res found cluster m,
            getCluster db tr
                = (tr ++ [Event.Connection none, Event.QueryCluster res], .ok cluster)
              ∧ m.Perm (changeUserPasswordMap req.Username changePass.NewPassword cluster)
              ∧ evs = [Event.Connection none, Event.QueryCluster res, Event.Lock,
                  Event.Connection none, Event.QueryExists req.Username found,
                  Event.BeginTx none,
                  Event.TxExec (parseQuery m defaultChangePasswordQuery) none,
                  Event.Commit none, Event.Rollback, Event.Unlock]
              ∧ (UpdateUser db req tr).2 = none) := by
  rw [UpdateUser_password db req tr changePass hname hpass]
  rcases changeUserPassword_cases db req.Username changePass tr with
    ⟨before, err, h, hfail⟩ | ⟨res, hp, -⟩ | ⟨res, cluster, hg, h⟩
  · refine ⟨_, by rw [h], ?_⟩
    intro hall
    obtain ⟨e, he, hf⟩ := hfail
    rw [hall e he] at hf
    exact Bool.noConfusion hf
  · exact absurd hp hpw
  · rw [h]
    simp only [hdefault, List.length_nil, if_true, deferUnlock]
    rcases changeUserPasswordLocked_cases db req.Username [defaultChangePasswordStatement]
        changePass.NewPassword cluster
        (tr ++ [Event.Connection none, Event.QueryCluster res] ++ [Event.Lock]) with
      ⟨before, err, h2, -, hfail, -⟩
        | ⟨found, m, hm, ⟨ce, h2⟩ | ⟨done, q, rest, err, -, h2⟩⟩
    · rw [h2]
      refine ⟨[Event.Connection none, Event.QueryCluster res, Event.Lock] ++ before
        ++ [Event.Unlock], by simp, ?_⟩
      intro hall
      obtain ⟨e, he, hf⟩ := hfail
      rw [hall e (by simp [he])] at hf
      exact Bool.noConfusion hf
    · rw [h2]
      simp only [List.flatMap_cons, List.flatMap_nil, List.append_nil, expandScript_default,
        List.map_cons, List.map_nil]
      refine ⟨[Event.Connection none, Event.QueryCluster res, Event.Lock,
        Event.Connection none, Event.QueryExists req.Username found, Event.BeginTx none,
        Event.TxExec (parseQuery m defaultChangePasswordQuery) none,
        Event.Commit ce, Event.Rollback, Event.Unlock], by simp, ?_⟩
      intro hall
      have hce : ce = none := by
        cases ce with
        | none => rfl
        | some e =>
          have := hall (Event.Commit (some e)) (by simp)
          exact Bool.noConfusion this
      subst hce
      exact ⟨res, found, cluster, m, hg, hm, rfl, rfl⟩
    · rw [h2]
      refine ⟨[Event.Connection none, Event.QueryCluster res, Event.Lock,
        Event.Connection none, Event.QueryExists req.Username found, Event.BeginTx none]
        ++ done.map (fun q => Event.TxExec q none)
        ++ [Event.TxExec q (some err), Event.Rollback, Event.Unlock], by simp, ?_⟩
      intro hall
      have := hall (Event.TxExec q (some err)) (by simp)
      exact Bool.noConfusion this

/-- The first event of a password rotation is the connection `getCluster`
fetches, before any `Lock`: the trace is not one inside the guard. -/
theorem UpdateUser_resolves_cluster_before_lock (db : Database) (req : UpdateUserRequest)
    (tr : List Event) (changePass : ChangePassword) (hname : req.Username ≠ [])
    (hpass : req.Password = some changePass) :
    ∃ evs, (UpdateUser db req tr).1 = tr ++ Event.Connection (db.Connection tr) :: evs
      ∧ guarded false (Event.Connection (db.Connection tr) :: evs) = false := by
  rw [UpdateUser_password db req tr changePass hname hpass]
  have hext : ∃ evs, (changeUserPassword db req.Username changePass tr).1
      = tr ++ Event.Connection (db.Connection tr) :: evs := by
    unfold changeUserPassword
    obtain ⟨evs, h1, -⟩ := getCluster_trace db tr
    rcases hg : getCluster db tr with ⟨tr1, e | c⟩
    · rw [hg] at h1
      exact ⟨evs, h1⟩
    · rw [hg] at h1
      simp only at h1 ⊢
      by_cases hp : changePass.NewPassword = []
      · simp only [hp, if_true]
        exact ⟨evs, h1⟩
      · simp only [hp, if_false, deferUnlock]
        rcases changeUserPasswordLocked_cases db req.Username
            (if changePass.Statements.Commands.length = 0
              then [defaultChangePasswordStatement] else changePass.Statements.Commands)
            changePass.NewPassword c (tr1 ++ [Event.Lock]) with
          ⟨before, err, h2, -⟩ | ⟨found, m, -, ⟨ce, h2⟩ | ⟨done, q, rest, err, -, h2⟩⟩ <;>
        · rw [h2, h1]
          exact ⟨_, by simp only [List.append_assoc, List.cons_append]; rfl⟩
  obtain ⟨evs, h⟩ := hext
  exact ⟨evs, h, rfl⟩

/-- The ways `defaultDeleteUser` can go. -/
theorem defaultDeleteUser_cases (db : Database) (username : GoString) (tr : List Event) :
    (∃ before err, defaultDeleteUser db username tr = (tr ++ before, some err)
        ∧ (∀ res, Event.QueryExists username res ∈ before → ∃ e, res = .err e)
        ∧ (∀ u c e, Event.DropUser u c e ∉ before)
        ∧ ∀ e ∈ before, e.isGuard = false)
      ∨ (∃ res found, (found = .row false ∨ found = .ErrNoRows)
          ∧ defaultDeleteUser db username tr
            = (tr ++ [Event.Connection none, Event.Connection none, Event.QueryCluster res,
                Event.QueryExists username found], none))
      ∨ ∃ res cluster err,
          defaultDeleteUser db username tr
            = (tr ++ ([Event.Connection none, Event.Connection none, Event.QueryCluster res,
                  Event.QueryExists username (.row true),
                  Event.DropUser username cluster err]
                ++ match err with
                  | some _ => []
                  | none => [Event.Close]), err) := by
  unfold defaultDeleteUser
  simp only [getConnection_eq]
  cases hc : db.Connection tr with
  | some e =>
    left
    exact ⟨[Event.Connection (some e)], e, rfl, by simp, by simp, by simp [Event.isGuard]⟩
  | none =>
    simp only
    rcases getCluster_cases db (tr ++ [Event.Connection none]) with
      ⟨e, h⟩ | ⟨e, h⟩ | ⟨res, c, h⟩
    · left
      rw [h]
      exact ⟨[Event.Connection none, Event.Connection (some e)], e, by simp, by simp,
        by simp, by simp [Event.isGuard]⟩
    · left
      rw [h]
      exact ⟨[Event.Connection none, Event.Connection none, Event.QueryCluster (.err e)], e,
        by simp, by simp, by simp, by simp [Event.isGuard]⟩
    · rw [h]
      simp only
      cases hq : db.QueryExists (tr ++ [Event.Connection none]
          ++ [Event.Connection none, Event.QueryCluster res]) username with
      | err e =>
        left
        exact ⟨[Event.Connection none, Event.Connection none, Event.QueryCluster res,
          Event.QueryExists username (.err e)], e, by simp, by simp,
          by simp, by simp [Event.isGuard]⟩
      | ErrNoRows =>
        right; left
        exact ⟨res, .ErrNoRows, Or.inr rfl, by simp⟩
      | row b =>
        cases b with
        | false =>
          right; left
          exact ⟨res, .row false, Or.inl rfl, by simp⟩
        | true =>
          right; right
          simp only
          cases hd : db.DropUser (tr ++ [Event.Connection none]
              ++ [Event.Connection none, Event.QueryCluster res]
              ++ [Event.QueryExists username (.row true)]) username c with
          | some e => exact ⟨res, c, some e, by simp⟩
          | none => exact ⟨res, c, none, by simp⟩

theorem DeleteUser_missing_user (db : Database) (req : DeleteUserRequest) (tr : List Event)
    (hdefault : req.Statements.Commands = []) :
    ∃ evs, (DeleteUser db req tr).1 = tr ++ evs
      ∧ ((Event.QueryExists req.Username (.row false) ∈ evs
            ∨ Event.QueryExists req.Username .ErrNoRows ∈ evs) →
          (DeleteUser db req tr).2 = none ∧ ∀ u c e, Event.DropUser u c e ∉ evs) := by
  unfold DeleteUser
  simp only [hdefault, List.length_nil, if_true, deferUnlock]
  rcases defaultDeleteUser_cases db req.Username (tr ++ [Event.Lock]) with
    ⟨before, err, h, hq, -, -⟩ | ⟨res, found, hf, h⟩ | ⟨res, cluster, err, h⟩
  · rw [h]
    refine ⟨Event.Lock :: before ++ [Event.Unlock], by simp, ?_⟩
    intro hmem
    exfalso
    rcases hmem with hmem | hmem <;>
    · simp only [List.cons_append, List.mem_cons, List.mem_append, List.mem_singleton,
        reduceCtorEq, false_or, or_false, List.not_mem_nil] at hmem
      obtain ⟨e, he⟩ := hq _ hmem
      cases he
  · rw [h]
    exact ⟨[Event.Lock, Event.Connection none, Event.Connection none, Event.QueryCluster res,
      Event.QueryExists req.Username found, Event.Unlock], by simp,
      fun _ => ⟨rfl, by simp⟩⟩
  · rw [h]
    cases err with
    | some e =>
      refine ⟨[Event.Lock, Event.Connection none, Event.Connection none,
        Event.QueryCluster res, Event.QueryExists req.Username (.row true),
        Event.DropUser req.Username cluster (some e), Event.Unlock], by simp, ?_⟩
      intro hmem
      exfalso
      simp at hmem
    | none =>
      refine ⟨[Event.Lock, Event.Connection none, Event.Connection none,
        Event.QueryCluster res, Event.QueryExists req.Username (.row true),
        Event.DropUser req.Username cluster none, Event.Close, Event.Unlock], by simp, ?_⟩
      intro hmem
      exfalso
      simp at hmem

theorem guarded_locked (evs : List Event) (h : ∀ e ∈ evs, e.isGuard = false) :
    guarded false (Event.Lock :: evs ++ [Event.Unlock]) = true := by
  have := guarded_append_quiet evs [Event.Unlock] h
  simp [guarded, this]

theorem customDeleteUser_trace (db : Database) (username : GoString)
    (revocationStmts : List GoString) (tr : List Event) :
    ∃ evs, (customDeleteUser db username revocationStmts tr).1 = tr ++ evs
      ∧ ∀ e ∈ evs, e.isGuard = false := by
  unfold customDeleteUser
  simp only [getConnection_eq]
  cases hc : db.Connection tr with
  | some e => exact ⟨[Event.Connection (some e)], rfl, by simp [Event.isGuard]⟩
  | none =>
    simp only
    cases hb : db.BeginTx (tr ++ [Event.Connection none]) with
    | some e =>
      exact ⟨[Event.Connection none, Event.BeginTx (some e)], by simp,
        by simp [Event.isGuard]⟩
    | none =>
      simp only [deferRollback]
      obtain ⟨evs, h1, h2⟩ := execStatements_trace db (customDeleteUserMap username)
        revocationStmts (tr ++ [Event.Connection none] ++ [Event.BeginTx none])
      rcases hx : execStatements db (customDeleteUserMap username) revocationStmts
          (tr ++ [Event.Connection none] ++ [Event.BeginTx none]) with ⟨tr1, _ | err⟩
      · rw [hx] at h1
        simp only at h1 ⊢
        refine ⟨[Event.Connection none, Event.BeginTx none] ++ evs
          ++ [Event.Commit (db.Commit tr1), Event.Rollback], by rw [h1]; simp, ?_⟩
        intro e he
        simp only [List.mem_append, List.mem_cons, List.mem_singleton, List.not_mem_nil,
          or_false] at he
        rcases he with (((rfl | rfl) | he) | rfl | rfl) <;> first | rfl | exact h2 _ he
      · rw [hx] at h1
        simp only at h1 ⊢
        refine ⟨[Event.Connection none, Event.BeginTx none] ++ evs ++ [Event.Rollback],
          by rw [h1]; simp, ?_⟩
        intro e he
        simp only [List.mem_append, List.mem_cons, List.mem_singleton, List.not_mem_nil,
          or_false] at he
        rcases he with (((rfl | rfl) | he) | rfl) <;> first | rfl | exact h2 _ he

/-- The function `DeleteUser` keeps every step inside the guard and releases it. -/
theorem DeleteUser_guarded (db : Database) (req : DeleteUserRequest) (tr : List Event) :
    ∃ evs, (DeleteUser db req tr).1 = tr ++ evs ∧ guarded false evs = true := by
  unfold DeleteUser
  simp only [deferUnlock]
  by_cases hlen : req.Statements.Commands.length = 0
  · simp only [hlen, if_true]
    rcases defaultDeleteUser_cases db req.Username (tr ++ [Event.Lock]) with
      ⟨before, err, h, -, -, hq⟩ | ⟨res, found, -, h⟩ | ⟨res, cluster, err, h⟩
    · rw [h]
      exact ⟨Event.Lock :: before ++ [Event.Unlock], by simp, guarded_locked before hq⟩
    · rw [h]
      exact ⟨[Event.Lock, Event.Connection none, Event.Connection none,
        Event.QueryCluster res, Event.QueryExists req.Username found, Event.Unlock],
        by simp, rfl⟩
    · rw [h]
      cases err with
      | some e =>
        exact ⟨[Event.Lock, Event.Connection none, Event.Connection none,
          Event.QueryCluster res, Event.QueryExists req.Username (.row true),
          Event.DropUser req.Username cluster (some e), Event.Unlock], by simp, rfl⟩
      | none =>
        exact ⟨[Event.Lock, Event.Connection none, Event.Connection none,
          Event.QueryCluster res, Event.QueryExists req.Username (.row true),
          Event.DropUser req.Username cluster none, Event.Close, Event.Unlock], by simp, rfl⟩
  · simp only [hlen, if_false]
    obtain ⟨evs, h1, h2⟩ := customDeleteUser_trace db req.Username req.Statements.Commands
      (tr ++ [Event.Lock])
    exact ⟨Event.Lock :: evs ++ [Event.Unlock], by rw [h1]; simp, guarded_locked evs h2⟩

/-- The function `NewUser` keeps every step inside the guard and releases it. -/
theorem NewUser_guarded {σ Config : Type} (lib : Library σ Config) (db : Database)
    (p : Clickhouse σ) (req : NewUserRequest) (tr : List Event) :
    ∃ evs, (NewUser lib db p req tr).1 = tr ++ evs ∧ guarded false evs = true := by
  by_cases hscript : req.Statements.Commands = []
  · exact ⟨[], by simp [NewUser, hscript], rfl⟩
  · rcases NewUser_cases lib db p req tr hscript with
      ⟨before, err, h, hb⟩ | ⟨res, username, cluster, -, -, ⟨ce, h⟩ | ⟨done, q, rest, err, -, h⟩⟩
    · refine ⟨Event.Lock :: before ++ [Event.Unlock], by rw [h]; simp,
        guarded_locked before ?_⟩
      intro e he
      rcases hb e he with ⟨x, rfl⟩ | ⟨x, rfl⟩ | ⟨x, rfl⟩ <;> rfl
    · refine ⟨Event.Lock :: ([Event.Connection none, Event.QueryCluster res,
          Event.Connection none, Event.BeginTx none]
        ++ (req.Statements.Commands.flatMap (expandScript
            (NewUserMap req username req.Expiration.Format cluster))).map
              (fun q => Event.TxExec q none)
        ++ [Event.Commit ce, Event.Rollback]) ++ [Event.Unlock], by rw [h]; simp,
        guarded_locked _ ?_⟩
      intro e he
      simp only [List.mem_append, List.mem_cons, List.mem_singleton, List.not_mem_nil,
        or_false, List.mem_map] at he
      rcases he with ((rfl | rfl | rfl | rfl) | ⟨x, -, rfl⟩) | rfl | rfl <;> rfl
    · refine ⟨Event.Lock :: ([Event.Connection none, Event.QueryCluster res,
          Event.Connection none, Event.BeginTx none]
        ++ done.map (fun q => Event.TxExec q none)
        ++ [Event.TxExec q (some err), Event.Rollback]) ++ [Event.Unlock], by rw [h]; simp,
        guarded_locked _ ?_⟩
      intro e he
      simp only [List.mem_append, List.mem_cons, List.mem_singleton, List.not_mem_nil,
        or_false, List.mem_map] at he
      rcases he with ((rfl | rfl | rfl | rfl) | ⟨x, -, rfl⟩) | rfl | rfl <;> rfl

/-! ## The default password statement -/

theorem replaceFrom_cons_ne (o : Char) (os new : GoString) (c : Char) (cs : GoString)
    (h : c ≠ o) :
    replaceFrom (o :: os) new 0 (c :: cs) = c :: replaceFrom (o :: os) new 0 cs := by
  have hp : (o :: os).isPrefixOf (c :: cs) = false := by
    simp [List.isPrefixOf, Ne.symm h]
  simp [replaceFrom, hp]

theorem replaceFrom_free (o : Char) (os new x rest : GoString) (h : o ∉ x) :
    replaceFrom (o :: os) new 0 (x ++ rest) = x ++ replaceFrom (o :: os) new 0 rest := by
  induction x with
  | nil => rfl
  | cons c cs ih =>
    have hc : c ≠ o := fun e => h (e ▸ List.mem_cons_self _ _)
    have hcs : o ∉ cs := fun hm => h (List.mem_cons_of_mem _ hm)
    rw [List.cons_append, replaceFrom_cons_ne o os new c _ hc, ih hcs]
    rfl

theorem handed_handInOrder (db : Database) (queries : List GoString) (tr : List Event) :
    ∃ count, handed (handInOrder db queries tr).1 = handed tr ++ queries.take count
      ∧ ((handInOrder db queries tr).2 = none → count = queries.length) := by
  rcases handInOrder_cases db queries tr with h | ⟨done, q, rest, err, h1, h2⟩
  · exact ⟨queries.length, by rw [h]; simp [handed_append, handed_map_TxExec], fun _ => rfl⟩
  · refine ⟨done.length + 1, ?_, ?_⟩
    · rw [h2, h1]
      simp [handed_append, handed_map_TxExec, handed, List.take_append_eq_append_take]
    · rw [h2]
      intro hcontra
      cases hcontra

theorem truncate_length_le (maxLen : Nat) (str : GoString) :
    (truncate maxLen str).length ≤ maxLen := by
  unfold truncate
  split
  · simp [List.length_take]
  · omega

theorem handed_getCluster (db : Database) (tr : List Event) :
    handed (getCluster db tr).1 = handed tr := by
  unfold getCluster
  rw [getConnection_eq]
  cases hc : db.Connection tr with
  | some err => simp [handed_append, handed]
  | none =>
    cases hq : db.QueryCluster (tr ++ [Event.Connection none]) <;>
      simp [hq, handed_append, handed]

/-! ## Substitution in the default statement, in any order -/

theorem isPrefixOf_append_cons (old v : GoString) (c : Char) (rest : GoString)
    (h : old.isPrefixOf (v ++ c :: rest) = true) :
    old.isPrefixOf v = true ∨ c ∈ old := by
  induction old generalizing v with
  | nil => exact Or.inl (by simp [List.isPrefixOf])
  | cons o os ih =>
    cases v with
    | nil =>
      simp only [List.nil_append, List.isPrefixOf, Bool.and_eq_true, beq_iff_eq] at h
      exact Or.inr (h.1 ▸ List.mem_cons_self _ _)
    | cons x xs =>
      simp only [List.cons_append, List.isPrefixOf, Bool.and_eq_true, beq_iff_eq] at h
      rcases ih xs h.2 with h' | h'
      · exact Or.inl (by simp [List.isPrefixOf, h.1, h'])
      · exact Or.inr (List.mem_cons_of_mem _ h')

/-- A value in which the token does not occur is passed over, when the text
goes on with a character that is not of the token. -/
theorem replaceFrom_pass (o : Char) (os new v : GoString) (c : Char) (rest : GoString)
    (hc : c ∉ o :: os) (hv : Contains v (o :: os) = false) :
    replaceFrom (o :: os) new 0 (v ++ c :: rest)
      = v ++ replaceFrom (o :: os) new 0 (c :: rest) := by
  induction v with
  | nil => rfl
  | cons x xs ih =>
    simp only [Contains, Bool.or_eq_false_iff] at hv
    have hp : (o :: os).isPrefixOf (x :: xs ++ c :: rest) = false := by
      cases hq : (o :: os).isPrefixOf (x :: xs ++ c :: rest) with
      | false => rfl
      | true =>
        rcases isPrefixOf_append_cons (o :: os) (x :: xs) c rest hq with h | h
        · rw [hv.1] at h
          exact Bool.noConfusion h
        · exact absurd h hc
    rw [List.cons_append] at hp ⊢
    simp only [replaceFrom, hp]
    rw [ih hv.2]
    rfl

theorem replaceFrom_pass_literal (o : Char) (os new v literal : GoString) (c : Char)
    (tail rest : GoString) (hl : literal = c :: tail)
    (hc : c ∉ o :: os) (hv : Contains v (o :: os) = false) :
    replaceFrom (o :: os) new 0 (v ++ (literal ++ rest))
      = v ++ replaceFrom (o :: os) new 0 (literal ++ rest) := by
  subst hl
  exact replaceFrom_pass o os new v c (tail ++ rest) hc hv

theorem replaceFrom_pass_last (o : Char) (os new v literal : GoString) (c : Char)
    (tail : GoString) (hl : literal = c :: tail)
    (hc : c ∉ o :: os) (hv : Contains v (o :: os) = false) :
    replaceFrom (o :: os) new 0 (v ++ literal)
      = v ++ replaceFrom (o :: os) new 0 literal := by
  subst hl
  exact replaceFrom_pass o os new v c tail hc hv

theorem replaceFrom_username_token (v rest : GoString) :
    replaceFrom ('{' :: "\x7busername\x7d\x7d".toList) v 0 ("{{username}}".toList ++ rest) = v ++ replaceFrom ('{' :: "\x7busername\x7d\x7d".toList) v 0 rest := by
  simp [replaceFrom, List.isPrefixOf]

theorem replaceFrom_password_token (v rest : GoString) :
    replaceFrom ('{' :: "\x7bpassword\x7d\x7d".toList) v 0 ("{{password}}".toList ++ rest) = v ++ replaceFrom ('{' :: "\x7bpassword\x7d\x7d".toList) v 0 rest := by
  simp [replaceFrom, List.isPrefixOf]

theorem replaceFrom_cluster_token (v rest : GoString) :
    replaceFrom ('{' :: "\x7bcluster\x7d\x7d".toList) v 0 ("{{cluster}}".toList ++ rest) = v ++ replaceFrom ('{' :: "\x7bcluster\x7d\x7d".toList) v 0 rest := by
  simp [replaceFrom, List.isPrefixOf]

theorem partlySubstituted_name (u pw c : GoString) (su sp sc : Bool)
    (hu : Contains u "{{name}}".toList = false) (hpw : Contains pw "{{name}}".toList = false)
    (hc : Contains c "{{name}}".toList = false) :
    ReplaceAll (partlySubstituted u pw c su sp sc)
        ("\x7b\x7b".toList ++ "name".toList ++ "\x7d\x7d".toList) u
      = partlySubstituted u pw c su sp sc := by
  show replaceFrom ('{' :: "\x7bname\x7d\x7d".toList) u 0 _ = _
  cases su <;> cases sp <;> cases sc <;>
    simp only [partlySubstituted, if_true, if_false, Bool.false_eq_true] <;>
    repeat (first
      | rw [replaceFrom_pass_literal '{' "\x7bname\x7d\x7d".toList _ u
          "' IDENTIFIED WITH plaintext_password '".toList (Char.ofNat 39) _ _ rfl (by decide) hu]
      | rw [replaceFrom_pass_literal '{' "\x7bname\x7d\x7d".toList _ pw "' ON CLUSTER '".toList
          (Char.ofNat 39) _ _ rfl (by decide) hpw]
      | rw [replaceFrom_pass_last '{' "\x7bname\x7d\x7d".toList _ c "'".toList (Char.ofNat 39) _ rfl
          (by decide) hc]
      | rw [replaceFrom_free _ _ _ "ALTER USER '".toList _ (by decide)]
      | rw [replaceFrom_free _ _ _ "' IDENTIFIED WITH plaintext_password '".toList _ (by decide)]
      | rw [replaceFrom_free _ _ _ "' ON CLUSTER '".toList _ (by decide)]
      | rw [show ∀ rest, replaceFrom ('{' :: "\x7bname\x7d\x7d".toList) u 0 ("{{username}}".toList ++ rest)
          = "{{username}}".toList ++ replaceFrom ('{' :: "\x7bname\x7d\x7d".toList) u 0 rest from fun _ => rfl]
      | rw [show ∀ rest, replaceFrom ('{' :: "\x7bname\x7d\x7d".toList) u 0 ("{{password}}".toList ++ rest)
          = "{{password}}".toList ++ replaceFrom ('{' :: "\x7bname\x7d\x7d".toList) u 0 rest from fun _ => rfl]
      | rw [show ∀ rest, replaceFrom ('{' :: "\x7bname\x7d\x7d".toList) u 0 ("{{cluster}}".toList ++ rest)
          = "{{cluster}}".toList ++ replaceFrom ('{' :: "\x7bname\x7d\x7d".toList) u 0 rest from fun _ => rfl]
      | rfl)

theorem partlySubstituted_username (u pw c : GoString) (su sp sc : Bool)
    (hu : Contains u "{{username}}".toList = false) (hpw : Contains pw "{{username}}".toList = false)
    (hc : Contains c "{{username}}".toList = false) :
    ReplaceAll (partlySubstituted u pw c su sp sc)
        ("\x7b\x7b".toList ++ "username".toList ++ "\x7d\x7d".toList) u
      = partlySubstituted u pw c true sp sc := by
  show replaceFrom ('{' :: "\x7busername\x7d\x7d".toList) u 0 _ = _
  cases su <;> cases sp <;> cases sc <;>
    simp only [partlySubstituted, if_true, if_false, Bool.false_eq_true] <;>
    repeat (first
      | rw [replaceFrom_pass_literal '{' "\x7busername\x7d\x7d".toList _ u
          "' IDENTIFIED WITH plaintext_password '".toList (Char.ofNat 39) _ _ rfl (by decide) hu]
      | rw [replaceFrom_pass_literal '{' "\x7busername\x7d\x7d".toList _ pw "' ON CLUSTER '".toList
          (Char.ofNat 39) _ _ rfl (by decide) hpw]
      | rw [replaceFrom_pass_last '{' "\x7busername\x7d\x7d".toList _ c "'".toList (Char.ofNat 39) _ rfl
          (by decide) hc]
      | rw [replaceFrom_free _ _ _ "ALTER USER '".toList _ (by decide)]
      | rw [replaceFrom_free _ _ _ "' IDENTIFIED WITH plaintext_password '".toList _ (by decide)]
      | rw [replaceFrom_free _ _ _ "' ON CLUSTER '".toList _ (by decide)]
      | rw [replaceFrom_username_token]
      | rw [show ∀ rest, replaceFrom ('{' :: "\x7busername\x7d\x7d".toList) u 0 ("{{password}}".toList ++ rest)
          = "{{password}}".toList ++ replaceFrom ('{' :: "\x7busername\x7d\x7d".toList) u 0 rest from fun _ => rfl]
      | rw [show ∀ rest, replaceFrom ('{' :: "\x7busername\x7d\x7d".toList) u 0 ("{{cluster}}".toList ++ rest)
          = "{{cluster}}".toList ++ replaceFrom ('{' :: "\x7busername\x7d\x7d".toList) u 0 rest from fun _ => rfl]
      | rfl)

theorem partlySubstituted_password (u pw c : GoString) (su sp sc : Bool)
    (hu : Contains u "{{password}}".toList = false) (hpw : Contains pw "{{password}}".toList = false)
    (hc : Contains c "{{password}}".toList = false) :
    ReplaceAll (partlySubstituted u pw c su sp sc)
        ("\x7b\x7b".toList ++ "password".toList ++ "\x7d\x7d".toList) pw
      = partlySubstituted u pw c su true sc := by
  show replaceFrom ('{' :: "\x7bpassword\x7d\x7d".toList) pw 0 _ = _
  cases su <;> cases sp <;> cases sc <;>
    simp only [partlySubstituted, if_true, if_false, Bool.false_eq_true] <;>
    repeat (first
      | rw [replaceFrom_pass_literal '{' "\x7bpassword\x7d\x7d".toList _ u
          "' IDENTIFIED WITH plaintext_password '".toList (Char.ofNat 39) _ _ rfl (by decide) hu]
      | rw [replaceFrom_pass_literal '{' "\x7bpassword\x7d\x7d".toList _ pw "' ON CLUSTER '".toList
          (Char.ofNat 39) _ _ rfl (by decide) hpw]
      | rw [replaceFrom_pass_last '{' "\x7bpassword\x7d\x7d".toList _ c "'".toList (Char.ofNat 39) _ rfl
          (by decide) hc]
      | rw [replaceFrom_free _ _ _ "ALTER USER '".toList _ (by decide)]
      | rw [replaceFrom_free _ _ _ "' IDENTIFIED WITH plaintext_password '".toList _ (by decide)]
      | rw [replaceFrom_free _ _ _ "' ON CLUSTER '".toList _ (by decide)]
      | rw [show ∀ rest, replaceFrom ('{' :: "\x7bpassword\x7d\x7d".toList) pw 0 ("{{username}}".toList ++ rest)
          = "{{username}}".toList ++ replaceFrom ('{' :: "\x7bpassword\x7d\x7d".toList) pw 0 rest from fun _ => rfl]
      | rw [replaceFrom_password_token]
      | rw [show ∀ rest, replaceFrom ('{' :: "\x7bpassword\x7d\x7d".toList) pw 0 ("{{cluster}}".toList ++ rest)
          = "{{cluster}}".toList ++ replaceFrom ('{' :: "\x7bpassword\x7d\x7d".toList) pw 0 rest from fun _ => rfl]
      | rfl)

theorem partlySubstituted_cluster (u pw c : GoString) (su sp sc : Bool)
    (hu : Contains u "{{cluster}}".toList = false) (hpw : Contains pw "{{cluster}}".toList = false)
    (hc : Contains c "{{cluster}}".toList = false) :
    ReplaceAll (partlySubstituted u pw c su sp sc)
        ("\x7b\x7b".toList ++ "cluster".toList ++ "\x7d\x7d".toList) c
      = partlySubstituted u pw c su sp true := by
  show replaceFrom ('{' :: "\x7bcluster\x7d\x7d".toList) c 0 _ = _
  cases su <;> cases sp <;> cases sc <;>
    simp only [partlySubstituted, if_true, if_false, Bool.false_eq_true] <;>
    repeat (first
      | rw [replaceFrom_pass_literal '{' "\x7bcluster\x7d\x7d".toList _ u
          "' IDENTIFIED WITH plaintext_password '".toList (Char.ofNat 39) _ _ rfl (by decide) hu]
      | rw [replaceFrom_pass_literal '{' "\x7bcluster\x7d\x7d".toList _ pw "' ON CLUSTER '".toList
          (Char.ofNat 39) _ _ rfl (by decide) hpw]
      | rw [replaceFrom_pass_last '{' "\x7bcluster\x7d\x7d".toList _ c "'".toList (Char.ofNat 39) _ rfl
          (by decide) hc]
      | rw [replaceFrom_free _ _ _ "ALTER USER '".toList _ (by decide)]
      | rw [replaceFrom_free _ _ _ "' IDENTIFIED WITH plaintext_password '".toList _ (by decide)]
      | rw [replaceFrom_free _ _ _ "' ON CLUSTER '".toList _ (by decide)]
      | rw [show ∀ rest, replaceFrom ('{' :: "\x7bcluster\x7d\x7d".toList) c 0 ("{{username}}".toList ++ rest)
          = "{{username}}".toList ++ replaceFrom ('{' :: "\x7bcluster\x7d\x7d".toList) c 0 rest from fun _ => rfl]
      | rw [show ∀ rest, replaceFrom ('{' :: "\x7bcluster\x7d\x7d".toList) c 0 ("{{password}}".toList ++ rest)
          = "{{password}}".toList ++ replaceFrom ('{' :: "\x7bcluster\x7d\x7d".toList) c 0 rest from fun _ => rfl]
      | rw [replaceFrom_cluster_token]
      | rfl)

theorem parseQuery_cons (kv : GoString × GoString) (m : List (GoString × GoString))
    (tpl : GoString) :
    parseQuery (kv :: m) tpl
      = parseQuery m (ReplaceAll tpl ("\x7b\x7b".toList ++ kv.1 ++ "\x7d\x7d".toList) kv.2) := rfl

theorem placeholderFree_iff (value : GoString) :
    placeholderFree value = true
      ↔ Contains value "{{name}}".toList = false
        ∧ Contains value "{{username}}".toList = false
        ∧ Contains value "{{password}}".toList = false
        ∧ Contains value "{{cluster}}".toList = false := by
  simp only [placeholderFree, Bool.and_eq_true, Bool.not_eq_true', and_assoc]

theorem parseQuery_partlySubstituted (u pw c : GoString)
    (hu : placeholderFree u = true) (hpw : placeholderFree pw = true)
    (hc : placeholderFree c = true) (l : List (GoString × GoString))
    (hl : ∀ kv ∈ l, kv ∈ changeUserPasswordMap u pw c) (su sp sc : Bool) :
    parseQuery l (partlySubstituted u pw c su sp sc)
      = partlySubstituted u pw c
          (su || decide (("username".toList, u) ∈ l))
          (sp || decide (("password".toList, pw) ∈ l))
          (sc || decide (("cluster".toList, c) ∈ l)) := by
  obtain ⟨u1, u2, u3, u4⟩ := (placeholderFree_iff u).1 hu
  obtain ⟨p1, p2, p3, p4⟩ := (placeholderFree_iff pw).1 hpw
  obtain ⟨c1, c2, c3, c4⟩ := (placeholderFree_iff c).1 hc
  induction l generalizing su sp sc with
  | nil => simp [parseQuery]
  | cons kv l ih =>
    have hkv := hl kv (List.mem_cons_self _ _)
    have hl' : ∀ x ∈ l, x ∈ changeUserPasswordMap u pw c :=
      fun x hx => hl x (List.mem_cons_of_mem _ hx)
    have n1 : "username".toList ≠ "name".toList := by decide
    have n2 : "password".toList ≠ "name".toList := by decide
    have n3 : "cluster".toList ≠ "name".toList := by decide
    have n4 : "password".toList ≠ "username".toList := by decide
    have n5 : "cluster".toList ≠ "username".toList := by decide
    have n6 : "cluster".toList ≠ "password".toList := by decide
    rw [parseQuery_cons]
    simp only [changeUserPasswordMap, List.mem_cons, List.mem_singleton, List.not_mem_nil,
      or_false] at hkv
    rcases hkv with rfl | rfl | rfl | rfl
    · rw [partlySubstituted_name u pw c su sp sc u1 p1 c1, ih hl']
      simp [n1, n2, n3]
    · rw [partlySubstituted_username u pw c su sp sc u2 p2 c2, ih hl']
      simp [n4, n5]
    · rw [partlySubstituted_password u pw c su sp sc u3 p3 c3, ih hl']
      simp [n4.symm, n6]
    · rw [partlySubstituted_cluster u pw c su sp sc u4 p4 c4, ih hl']
      simp [n5.symm, n6.symm]

/-- The default query with its placeholders substituted, written out: for a
username, a password and a cluster name in which no placeholder token occurs,
in whatever order the entries of the parameter map are visited. -/
theorem parseQuery_default_any_order (u pw c : GoString)
    (hu : placeholderFree u = true) (hpw : placeholderFree pw = true)
    (hc : placeholderFree c = true) (m : List (GoString × GoString))
    (hm : m.Perm (changeUserPasswordMap u pw c)) :
    parseQuery m defaultChangePasswordQuery
      = "ALTER USER '".toList ++ u ++ "' IDENTIFIED WITH plaintext_password '".toList ++ pw
          ++ "' ON CLUSTER '".toList ++ c ++ "'".toList := by
  have hstart : defaultChangePasswordQuery = partlySubstituted u pw c false false false := rfl
  rw [hstart, parseQuery_partlySubstituted u pw c hu hpw hc m (fun kv h => hm.subset h)]
  have h1 : ("username".toList, u) ∈ m := hm.symm.subset (by simp [changeUserPasswordMap])
  have h2 : ("password".toList, pw) ∈ m := hm.symm.subset (by simp [changeUserPasswordMap])
  have h3 : ("cluster".toList, c) ∈ m := hm.symm.subset (by simp [changeUserPasswordMap])
  simp only [h1, h2, h3, decide_True, Bool.or_true, partlySubstituted, if_true,
    List.append_assoc]

theorem mem_insertions {α : Type} (a : α) (l1 l2 : List α) :
    l1 ++ a :: l2 ∈ insertions a (l1 ++ l2) := by
  induction l1 with
  | nil => cases l2 <;> simp [insertions]
  | cons b l1 ih =>
    simp only [List.cons_append, insertions, List.mem_cons, List.mem_map]
    exact Or.inr ⟨_, ih, rfl⟩

theorem mem_orders_of_perm {α : Type} (l m : List α) (h : m.Perm l) : m ∈ orders l := by
  induction l generalizing m with
  | nil => simp [orders, List.Perm.eq_nil h]
  | cons a l ih =>
    have ha : a ∈ m := h.symm.subset (List.mem_cons_self _ _)
    obtain ⟨l1, l2, rfl⟩ := List.append_of_mem ha
    have h' : (l1 ++ l2).Perm l := (List.perm_middle.symm.trans h).cons_inv
    simp only [orders, List.mem_flatMap]
    exact ⟨l1 ++ l2, ih _ h', mem_insertions a l1 l2⟩

/-- With a username that is the token of the password and a password that is
the token of the username, no order of the entries gives the default statement
with the two values in the place of their placeholders. -/
theorem placeholder_orders :
    ∀ m ∈ orders (changeUserPasswordMap "{{password}}".toList "{{username}}".toList
        "c1".toList),
      parseQuery m defaultChangePasswordQuery
        ≠ "ALTER USER '{{password}}' IDENTIFIED WITH plaintext_password '{{username}}' ON CLUSTER 'c1'".toList := by
  decide

/-! ## The claims -/

/-- Claim C1. Statement expansion as `NewUser`, `changeUserPassword` and
`customDeleteUser` use it: for every list of scripts and every parameter map,
the loops are the same as handing to the transaction, in order and until an
execution fails, the statements of the spec's templater: each script split on
`;`, the pieces trimmed, the empty ones dropped, the placeholders substituted.
The queries the loops hand over are the first `count` statements of that list,
and all of them when the loops end without an error. -/
theorem statement_expansion (db : Database) (m : List (GoString × GoString))
    (stmts : List GoString) (tr : List Event) :
    execStatements db m stmts tr = handInOrder db (stmts.flatMap (expandScript m)) tr
      ∧ ∃ count,
          handed (execStatements db m stmts tr).1
              = handed tr ++ (stmts.flatMap (expandScript m)).take count
            ∧ ((execStatements db m stmts tr).2 = none →
                count = (stmts.flatMap (expandScript m)).length) := by
  refine ⟨execStatements_eq_handInOrder db m stmts tr, ?_⟩
  rw [execStatements_eq_handInOrder]
  exact handed_handInOrder db _ tr

/-- Claim C2. `NewUser` is all or nothing: for a non-empty script, with `evs`
the events of the call, if the execution of a statement fails then `NewUser`
returns an error, no `Commit` is among the events, `Rollback` is, and no
statement persists; and a `Commit` among the events comes right after every
statement of the expansion has been executed without error, in order. -/
theorem NewUser_all_or_nothing {σ Config : Type} (lib : Library σ Config) (db : Database)
    (p : Clickhouse σ) (req : NewUserRequest) (tr : List Event)
    (hscript : req.Statements.Commands ≠ []) :
    ∃ evs, (NewUser lib db p req tr).1 = tr ++ evs
      ∧ ((∃ q err, Event.TxExec q (some err) ∈ evs) →
          (∃ e, (NewUser lib db p req tr).2 = .error e)
            ∧ (∀ ce, Event.Commit ce ∉ evs)
            ∧ Event.Rollback ∈ evs
            ∧ persisted [] evs = [])
      ∧ (∀ ce, Event.Commit ce ∈ evs →
          ∃ before username cluster,
            lib.Generate p.usernameProducer req.UsernameConfig = .ok username
              ∧ (getCluster db (tr ++ [Event.Lock])).2 = .ok cluster
              ∧ evs = before
                  ++ (req.Statements.Commands.flatMap (expandScript
                        (NewUserMap req username req.Expiration.Format cluster))).map
                      (fun q => Event.TxExec q none)
                  ++ [Event.Commit ce, Event.Rollback, Event.Unlock]
              ∧ handed before = []) := by
  rcases NewUser_cases lib db p req tr hscript with
    ⟨before, err, h, hb⟩ | ⟨res, username, cluster, hgen, hcl, ⟨ce, h⟩ | ⟨done, q, rest, err, hq, h⟩⟩
  · refine ⟨Event.Lock :: before ++ [Event.Unlock], by rw [h]; simp, ?_, ?_⟩
    · rintro ⟨q, e, hmem⟩
      exfalso
      simp only [List.cons_append, List.mem_cons, List.mem_append, List.mem_singleton,
        reduceCtorEq, false_or, or_false, List.not_mem_nil] at hmem
      rcases hb _ hmem with ⟨x, hx⟩ | ⟨x, hx⟩ | ⟨x, hx⟩ <;> cases hx
    · intro ce hmem
      exfalso
      simp only [List.cons_append, List.mem_cons, List.mem_append, List.mem_singleton,
        reduceCtorEq, false_or, or_false, List.not_mem_nil] at hmem
      rcases hb _ hmem with ⟨x, hx⟩ | ⟨x, hx⟩ | ⟨x, hx⟩ <;> cases hx
  · refine ⟨_, by rw [h]; simp only [List.append_assoc]; rfl, ?_, ?_⟩
    · rintro ⟨q, e, hmem⟩
      exfalso
      simp at hmem
    · intro ce' hmem
      have hce : ce' = ce := by
        simp at hmem
        exact hmem
      subst hce
      exact ⟨[Event.Lock, Event.Connection none, Event.QueryCluster res,
        Event.Connection none, Event.BeginTx none], username, cluster, hgen, hcl,
        by simp, by simp [handed]⟩
  · refine ⟨_, by rw [h]; simp only [List.append_assoc]; rfl, ?_, ?_⟩
    · intro _
      refine ⟨⟨_, by rw [h]⟩, ?_, ?_, ?_⟩
      · intro ce hmem
        simp at hmem
      · simp
      · simp [persisted, persisted_map_TxExec]
    · intro ce hmem
      exfalso
      simp at hmem

/-- The script of `sampleNewUserRequest` on a database that refuses the grant:
the call fails, rolls back and leaves nothing behind. -/
theorem NewUser_all_or_nothing_witness :
    sampleNewUserRequest.Statements.Commands ≠ []
      ∧ (∃ e, (NewUser sampleLibrary grantRefusedDb samplePlugin sampleNewUserRequest []).2
          = .error e)
      ∧ Event.Rollback
          ∈ (NewUser sampleLibrary grantRefusedDb samplePlugin sampleNewUserRequest []).1
      ∧ persisted []
          (NewUser sampleLibrary grantRefusedDb samplePlugin sampleNewUserRequest []).1 = [] := by
  obtain ⟨evs, h1, h2, -⟩ := NewUser_all_or_nothing sampleLibrary grantRefusedDb samplePlugin
    sampleNewUserRequest [] (by decide)
  have hev : evs
      = (NewUser sampleLibrary grantRefusedDb samplePlugin sampleNewUserRequest []).1 := by
    simpa using h1.symm
  subst hev
  obtain ⟨he, -, hr, hp⟩ := h2 ⟨"GRANT ALL ON *.* TO 'v-token'".toList, "access denied".toList,
    by decide⟩
  exact ⟨by decide, he, hr, hp⟩

/-- Claim C3. `DeleteUser` without revocation statements is idempotent for a
missing user: in a call whose existence check reports that the user does not
exist, or yields no row, `DeleteUser` returns no error and the `DROP USER`
statement is not executed; so it is for the first call and for a second call
that follows it. -/
theorem DeleteUser_missing_user_twice (db : Database) (req : DeleteUserRequest)
    (tr : List Event) (hdefault : req.Statements.Commands = []) :
    ∃ first second,
      (DeleteUser db req tr).1 = tr ++ first
        ∧ (DeleteUser db req (tr ++ first)).1 = tr ++ first ++ second
        ∧ ((Event.QueryExists req.Username (.row false) ∈ first
              ∨ Event.QueryExists req.Username .ErrNoRows ∈ first) →
            (DeleteUser db req tr).2 = none ∧ ∀ u c e, Event.DropUser u c e ∉ first)
        ∧ ((Event.QueryExists req.Username (.row false) ∈ second
              ∨ Event.QueryExists req.Username .ErrNoRows ∈ second) →
            (DeleteUser db req (tr ++ first)).2 = none
              ∧ ∀ u c e, Event.DropUser u c e ∉ second) := by
  obtain ⟨first, h1, h2⟩ := DeleteUser_missing_user db req tr hdefault
  obtain ⟨second, h3, h4⟩ := DeleteUser_missing_user db req (tr ++ first) hdefault
  exact ⟨first, second, h1, h3, h2, h4⟩

/-- Two deletions of a user the database does not have: both succeed. -/
theorem DeleteUser_missing_user_twice_witness :
    sampleDeleteRequest.Statements.Commands = []
      ∧ (DeleteUser noUserDb sampleDeleteRequest []).2 = none
      ∧ (DeleteUser noUserDb sampleDeleteRequest
          (DeleteUser noUserDb sampleDeleteRequest []).1).2 = none := by
  obtain ⟨first, second, h1, h2, h3, h4⟩ :=
    DeleteUser_missing_user_twice noUserDb sampleDeleteRequest [] rfl
  have hev : first = (DeleteUser noUserDb sampleDeleteRequest []).1 := by
    simpa using h1.symm
  subst hev
  have hsec : second = List.drop (DeleteUser noUserDb sampleDeleteRequest []).1.length
      (DeleteUser noUserDb sampleDeleteRequest
        (DeleteUser noUserDb sampleDeleteRequest []).1).1 := by
    have := congrArg (List.drop (DeleteUser noUserDb sampleDeleteRequest []).1.length) h2
    simpa using this.symm
  subst hsec
  have a := (h3 (Or.inl (by decide))).1
  have b := (h4 (Or.inl (by decide))).1
  exact ⟨rfl, a, by simpa using b⟩

/-- Claim C4. `UpdateUser` with a non-empty username and neither a password
change nor an expiration change returns the error `no changes requested` and
adds nothing to the trace: no connection, no query, no transaction, no lock. -/
theorem UpdateUser_no_changes_requested (db : Database) (req : UpdateUserRequest)
    (tr : List Event) (hname : req.Username ≠ []) (hpass : req.Password = none)
    (hexp : req.Expiration = none) :
    UpdateUser db req tr
      = (tr, some (GoError.errorString "no changes requested".toList)) := by
  simp [UpdateUser, hname, hpass, hexp]

/-- A request that changes nothing, on a healthy database. -/
theorem UpdateUser_no_changes_requested_witness :
    UpdateUser healthyDb ⟨"bob".toList, none, none⟩ []
      = ([], some (GoError.errorString "no changes requested".toList)) :=
  UpdateUser_no_changes_requested healthyDb ⟨"bob".toList, none, none⟩ []
    (by decide) rfl rfl

/-- Claim C5, as the code refutes it: the username of the request is the token
`{{password}}` and the new password the token `{{username}}`, on a database on
which every call succeeds.  The claim has the statement
`ALTER USER '{{password}}' IDENTIFIED WITH plaintext_password '{{username}}' ON CLUSTER 'c1'`
executed; the call executes another one, and so it does in every order in which
the entries of the map can be visited. -/
theorem UpdateUser_placeholder_in_values :
    placeholderRequest.Username ≠ []
      ∧ (UpdateUser healthyDb placeholderRequest []).2 = none
      ∧ (∀ e ∈ (UpdateUser healthyDb placeholderRequest []).1, e.failed = false)
      ∧ handed (UpdateUser healthyDb placeholderRequest []).1
        = ["ALTER USER '{{username}}' IDENTIFIED WITH plaintext_password '{{username}}' ON CLUSTER 'c1'".toList]
      ∧ ∀ m, m.Perm (changeUserPasswordMap "{{password}}".toList "{{username}}".toList
            "c1".toList) →
          parseQuery m defaultChangePasswordQuery
            ≠ "ALTER USER '{{password}}' IDENTIFIED WITH plaintext_password '{{username}}' ON CLUSTER 'c1'".toList :=
  ⟨by decide, by decide, by decide, by decide,
    fun m hm => placeholder_orders m (mem_orders_of_perm _ m hm)⟩

/-- Claim C5, amended. `UpdateUser` with a non-empty username, a non-empty new
password and no statements of its own, in a call in which no database call
fails, returns no error and executes one statement in its transaction: the
default password statement with its placeholders substituted, the entries of
the parameter map taken in the order `m` of this call.  When no placeholder
token occurs in the username, in the new password or in the cluster name that
`getCluster` resolved in this call, that statement is the text of the default
statement with the three values in the place of their placeholders, whatever
the order. -/
theorem UpdateUser_default_statement (db : Database) (req : UpdateUserRequest)
    (tr : List Event) (changePass : ChangePassword) (hname : req.Username ≠ [])
    (hpass : req.Password = some changePass) (hpw : changePass.NewPassword ≠ [])
    (hdefault : changePass.Statements.Commands = []) :
    ∃ evs, (UpdateUser db req tr).1 = tr ++ evs
      ∧ ((∀ e ∈ evs, e.failed = false) →
          ∃ res found cluster m,
            getCluster db tr
                = (tr ++ [Event.Connection none, Event.QueryCluster res], .ok cluster)
              ∧ m.Perm (changeUserPasswordMap req.Username changePass.NewPassword cluster)
              ∧ evs = [Event.Connection none, Event.QueryCluster res, Event.Lock,
                  Event.Connection none, Event.QueryExists req.Username found,
                  Event.BeginTx none,
                  Event.TxExec (parseQuery m defaultChangePasswordQuery) none,
                  Event.Commit none, Event.Rollback, Event.Unlock]
              ∧ (UpdateUser db req tr).2 = none
              ∧ (placeholderFree req.Username = true →
                  placeholderFree changePass.NewPassword = true →
                  placeholderFree cluster = true →
                  parseQuery m defaultChangePasswordQuery
                    = "ALTER USER '".toList ++ req.Username
                        ++ "' IDENTIFIED WITH plaintext_password '".toList
                        ++ changePass.NewPassword ++ "' ON CLUSTER '".toList ++ cluster
                        ++ "'".toList)) := by
  obtain ⟨evs, h1, h2⟩ := UpdateUser_default_trace db req tr changePass hname hpass hpw hdefault
  refine ⟨evs, h1, fun hall => ?_⟩
  obtain ⟨res, found, cluster, m, hg, hm, hev, hres⟩ := h2 hall
  exact ⟨res, found, cluster, m, hg, hm, hev, hres, fun hu hp hc =>
    parseQuery_default_any_order _ _ _ hu hp hc m hm⟩

/-- The rotation of the password of `v-svc-ops-abc123-456` to `newpass` on a
healthy database with cluster `c1`: no placeholder token occurs in the values,
and the statement is the written-out one. -/
theorem UpdateUser_default_statement_witness :
    samplePasswordRequest.Username ≠ []
      ∧ placeholderFree samplePasswordRequest.Username = true
      ∧ placeholderFree "newpass".toList = true
      ∧ (UpdateUser healthyDb samplePasswordRequest []).2 = none
      ∧ handed (UpdateUser healthyDb samplePasswordRequest []).1
        = ["ALTER USER 'v-svc-ops-abc123-456' IDENTIFIED WITH plaintext_password 'newpass' ON CLUSTER 'c1'".toList] := by
  obtain ⟨evs, h1, h2⟩ := UpdateUser_default_statement healthyDb samplePasswordRequest []
    ⟨"newpass".toList, ⟨[]⟩⟩ (by decide) rfl (by decide) rfl
  have hev : evs = (UpdateUser healthyDb samplePasswordRequest []).1 := by
    simpa using h1.symm
  obtain ⟨res, found, cluster, m, hg, -, hevs, hres, hq⟩ := h2 (by rw [hev]; decide)
  have hcl : cluster = "c1".toList := by
    have h := congrArg Prod.snd hg
    injection h with h
    exact h.symm
  subst hcl
  refine ⟨by decide, by decide, by decide, hres, ?_⟩
  rw [← hev, hevs]
  simp only [handed]
  rw [hq (by decide) (by decide) (by decide)]
  rfl

/-- Claim C6. The username of the default template is at most 63 characters
long, for every display name and role name, whatever the random token and the
time stamp. -/
theorem default_username_length_le_63 (random : Nat → GoString) (unix_time : GoString)
    (md : UsernameMetadata) :
    (renderDefaultUserNameTemplate random unix_time md).length ≤ 63 :=
  truncate_length_le 63 _

/-- Claim C7, as the code refutes it: a plugin that holds the default template
is initialized with a template that compiles and cannot be rendered;
`Initialize` returns the error of the dry run, and the template the plugin
holds is no longer the one it held. -/
theorem Initialize_dry_run_failure_keeps_new_template :
    (Initialize sampleLibrary samplePlugin unrenderable false).2
        = .error (wrap "invalid username template" "unable to apply template".toList)
      ∧ (Initialize sampleLibrary samplePlugin unrenderable false).1.usernameProducer
        ≠ samplePlugin.usernameProducer :=
  ⟨rfl, by decide⟩

/-- Claim C7, amended. When `Initialize` returns an error, the connection
producer is as its own `Init` left it, and the username template of the plugin
is the one it held before the call unless the error is the one of the dry-run
render of a template that compiled. -/
theorem Initialize_error_state {σ Config : Type} (lib : Library σ Config) (p : Clickhouse σ)
    (config : Config) (verifyConnection : Bool) (err : GoString)
    (hfail : (Initialize lib p config verifyConnection).2 = .error err) :
    (Initialize lib p config verifyConnection).1.SQLConnectionProducer
        = (lib.Init p.SQLConnectionProducer config verifyConnection).1
      ∧ ((Initialize lib p config verifyConnection).1.usernameProducer = p.usernameProducer
        ∨ ∃ text up cause,
            lib.NewTemplate text = .ok up
            ∧ lib.Generate up { DisplayName := [], RoleName := [] } = .error cause
            ∧ err = wrap "invalid username template" cause) := by
  unfold Initialize at hfail ⊢
  rcases hi : lib.Init p.SQLConnectionProducer config verifyConnection with ⟨producer, e | conf⟩
  · simp
  · rcases hg : lib.GetString config "username_template".toList with e | text
    · simp
    · simp only [hi, hg] at hfail ⊢
      rcases hn : lib.NewTemplate
          (if text = [] then defaultUserNameTemplate else text) with e | up
      · simp
      · simp only [hn] at hfail ⊢
        rcases hd : lib.Generate up { DisplayName := [], RoleName := [] } with cause | name
        · simp only [hd] at hfail ⊢
          refine ⟨trivial, Or.inr ⟨_, up, cause, hn, hd, ?_⟩⟩
          injection hfail with h
          exact h.symm
        · simp [hd] at hfail

/-- A template that does not compile: `Initialize` fails and the plugin keeps
the template it held. -/
theorem Initialize_error_state_witness :
    (Initialize sampleLibrary samplePlugin unparsable false).2
        = .error (wrap "unable to initialize username template"
            "unable to parse template".toList)
      ∧ (Initialize sampleLibrary samplePlugin unparsable false).1.usernameProducer
        = samplePlugin.usernameProducer := by
  rcases (Initialize_error_state sampleLibrary samplePlugin unparsable false _ rfl).2 with
    h | ⟨text, up, cause, -, -, he⟩
  · exact ⟨rfl, h⟩
  · have hne : wrap "unable to initialize username template" "unable to parse template".toList
        ≠ wrap "invalid username template" cause := by
      simp [wrap]
    exact absurd he hne

/-- Claim C8, at the request `samplePasswordRequest` on a healthy database:
`UpdateUser` fetches the connection and queries the cluster before it takes the
lock, so its trace is not one in which every database step is inside the
guard. -/
theorem UpdateUser_cluster_query_outside_guard :
    (UpdateUser healthyDb samplePasswordRequest []).1
        = [Event.Connection none, Event.QueryCluster (.row "c1".toList), Event.Lock,
            Event.Connection none,
            Event.QueryExists "v-svc-ops-abc123-456".toList (.row true),
            Event.BeginTx none,
            Event.TxExec "ALTER USER 'v-svc-ops-abc123-456' IDENTIFIED WITH plaintext_password 'newpass' ON CLUSTER 'c1'".toList none,
            Event.Commit none, Event.Rollback, Event.Unlock]
      ∧ guarded false (UpdateUser healthyDb samplePasswordRequest []).1 = false := by
  decide

/-- Claim C9. `UpdateUser` with a non-empty username, no password change and an
expiration change returns no error and adds nothing to the trace. -/
theorem UpdateUser_expiration_only (db : Database) (req : UpdateUserRequest)
    (tr : List Event) (changeExp : ChangeExpiration) (hname : req.Username ≠ [])
    (hpass : req.Password = none) (hexp : req.Expiration = some changeExp) :
    UpdateUser db req tr = (tr, none) := by
  simp [UpdateUser, hname, hpass, hexp, ErrorOrNil]

/-- An expiration change alone, on a database that cannot be reached. -/
theorem UpdateUser_expiration_only_witness :
    UpdateUser refusedDb ⟨"bob".toList, none, some ⟨⟨2030, 1, 2, 3, 4, 5⟩, ⟨[]⟩⟩⟩ []
      = ([], none) :=
  UpdateUser_expiration_only refusedDb _ [] ⟨⟨2030, 1, 2, 3, 4, 5⟩, ⟨[]⟩⟩
    (by decide) rfl rfl

/-- Claim C10, at the request `emptyPasswordRequest` on a database that cannot
be reached: `changeUserPassword` resolves the cluster before it checks the
password, so the error of `UpdateUser` is the one of the connection that
`getCluster` fetches, not `missing password`. -/
theorem UpdateUser_empty_password_unreachable_db :
    (UpdateUser refusedDb emptyPasswordRequest []).2
        = some (GoError.multierror ["connection refused".toList])
      ∧ (UpdateUser refusedDb emptyPasswordRequest []).2
        ≠ some (GoError.multierror ["missing password".toList])
      ∧ (UpdateUser refusedDb emptyPasswordRequest []).2
        ≠ some (GoError.errorString "missing password".toList) := by
  decide

/-- What `UpdateUser` does with a non-empty username and an empty new password,
on every database: it fails and hands no statement to a transaction; its
events are those of `getCluster`, and when `getCluster` succeeds the error is
the collected error that holds `missing password`. -/
theorem UpdateUser_empty_password (db : Database) (req : UpdateUserRequest) (tr : List Event)
    (changePass : ChangePassword) (hname : req.Username ≠ [])
    (hpass : req.Password = some changePass) (hempty : changePass.NewPassword = []) :
    (UpdateUser db req tr).1 = (getCluster db tr).1
      ∧ (∃ err, (UpdateUser db req tr).2 = some err)
      ∧ handed (UpdateUser db req tr).1 = handed tr
      ∧ (∀ cluster, (getCluster db tr).2 = .ok cluster →
          (UpdateUser db req tr).2
            = some (GoError.multierror ["missing password".toList])) := by
  have key : UpdateUser db req tr
      = ((getCluster db tr).1, some (GoError.multierror
            [match (getCluster db tr).2 with
              | .error err => err
              | .ok _ => "missing password".toList])) := by
    simp only [UpdateUser, hname, hpass, changeUserPassword, hempty]
    rcases hg : getCluster db tr with ⟨tr1, _ | _⟩ <;>
      simp [multierrorAppend, ErrorOrNil]
  rw [key]
  refine ⟨rfl, ⟨_, rfl⟩, handed_getCluster db tr, ?_⟩
  intro cluster hc
  simp only [hc]

end VaultClickhouse
